import Mathlib

/-!
Verification development for the function-contract core of this repository.

The definitions below are a shallow embedding of the Rust sources:

* `library/kani_macros/src/sysroot/contracts.rs` (Phase A: the proc-macro
  source rewriting — contract state machine, old-value lifter,
  postcondition injector, generated-name hashing, argument forwarding),
* `kani-compiler/src/kani_middle/attributes.rs` (Phase B: the assigns/frees
  place parser),
* `kani-compiler/src/kani_middle/contracts.rs` (the generic contract record),
* `kani-compiler/src/codegen_cprover_gotoc/codegen/contract.rs` (resolution
  of the checked instance and the recursion-tracker string).

Conventions of the embedding:

* Rust functions that can emit compiler diagnostics and/or panic are modelled
  in the monad `PM`: a state of already-emitted diagnostic messages
  (`span_err` / `.error(..).emit()` sites append to it) combined with an
  exception for aborting failures (`span_fatal`, `panic!`, `unwrap`,
  `assert!`, `unreachable!`).
* `syn` / `rustc_ast` data is modelled by inductive types that keep exactly
  the structure the translated functions inspect; token streams produced by
  `quote!` templates are modelled by constructors that stand for the
  template they instantiate (documented at each constructor).
* Hash state is `Nat`; the concrete `DefaultHasher` permutation is a
  parameter (`HashSteps`), since only its determinism and its input
  (the span-erased token structure) matter to the claims.
-/

namespace KaniC

/-- Diagnostic+abort monad: the state is the list of emitted (recoverable)
diagnostics, the exception is a fatal abort (panic / `span_fatal`). -/
def PM (α : Type) : Type := List String → Except String α × List String

namespace PM

def pure' (a : α) : PM α := fun s => (Except.ok a, s)

def bind' (m : PM α) (k : α → PM β) : PM β := fun s =>
  match m s with
  | (Except.ok a, s1) => k a s1
  | (Except.error e, s1) => (Except.error e, s1)

instance : Monad PM where
  pure := pure'
  bind := bind'

/-- Models `span_err` / `.error(..).emit()`: record a diagnostic and continue. -/
def emitErr (msg : String) : PM Unit := fun s => (Except.ok (), s ++ [msg])

/-- Models `span_fatal` / `panic!` / failing `assert!` / `unwrap` on `None`. -/
def fatal (msg : String) : PM α := fun s => (Except.error msg, s)

/-- Run with an empty diagnostic sink. -/
def run (m : PM α) : Except String α × List String := m []

/-- The run succeeded and emitted no diagnostics at all. -/
def cleanOk (m : PM α) (a : α) : Prop := m.run = (Except.ok a, [])

theorem bind_def (m : PM α) (k : α → PM β) (s : List String) :
    (m >>= k) s = match m s with
      | (Except.ok a, s1) => k a s1
      | (Except.error e, s1) => (Except.error e, s1) := rfl

theorem pure_def (a : α) (s : List String) :
    (PM.pure' a : PM α) s = (Except.ok a, s) := rfl

end PM

/-- Models `Option::unwrap` / `Option::unwrap_or_else(|| panic!(..))`. -/
def unwrapO (msg : String) : Option α → PM α
  | some a => PM.pure' a
  | none => PM.fatal msg

/-!  ## Syntax model shared by the Phase-A (proc macro) components

`RExpr` is the fragment of `syn::Expr` that the translated functions build
or inspect; `Pat` is the fragment of `syn::Pat` matched by `pat_to_expr`.
Lists of sub-terms are their own mutual inductives so that all recursions
are structural.  `Toks` models a `proc_macro2::TokenStream` spliced by a
`quote!` template (the postcondition-enforcement code). -/

mutual

inductive RExpr : Type where
  /-- Models `Expr::Call { func, args }`. -/
  | call (fn : RExpr) (args : RExprs)
  /-- Models `Expr::Path` with no qself/leading colon: the segment ident list. -/
  | path (segs : List String)
  /-- Models `Expr::Lit` (rendered source text of the literal). -/
  | lit (s : String)
  /-- A binary operation `l op r`. -/
  | binop (op : String) (l r : RExpr)
  /-- Models `Expr::Reference`. -/
  | refE (isMut : Bool) (e : RExpr)
  /-- Models `Expr::Tuple`. -/
  | tuple (elems : RExprs)
  /-- Models `Expr::Array`. -/
  | array (elems : RExprs)
  /-- Models `Expr::Struct` (no rest, no qself — as built by `pat_to_expr`). -/
  | structE (spath : List String) (fields : RFields)
  /-- Models `Expr::Const` (the const block's rendered contents). -/
  | constE (s : String)
  /-- Models `Expr::Return` with a sub-expression. -/
  | retSome (e : RExpr)
  /-- Models `Expr::Return` without a sub-expression. -/
  | retNone
  /-- Models `Expr::Closure` (only the body is relevant to the visitors). -/
  | closure (body : RExpr)
  /-- A block expression (statement list). -/
  | blockE (stmts : RExprs)
  /-- Models `Expr::Verbatim` holding a lone identifier (built by `pat_to_expr`
  for `Pat::Ident` and for the receiver `self`). -/
  | verbatimIdent (s : String)
  /-- Models `Expr::Verbatim({ let result = bind; TOKS return result; })` as built
  by `PostconditionInjector` for `return bind`. -/
  | injectedRet (bind : RExpr) (toks : Toks)
  /-- Models `Expr::Verbatim({ TOKS return; })` as built by `PostconditionInjector`
  for a bare `return`. -/
  | injectedRetUnit (toks : Toks)

inductive RExprs : Type where
  | nil
  | cons (e : RExpr) (es : RExprs)

inductive RFields : Type where
  | fnil
  | fcons (member : String) (colon : Bool) (e : RExpr) (fs : RFields)

/-- A `TokenStream2` payload spliced by the postcondition injector. -/
inductive Toks : Type where
  /-- The `exec_postconditions` stream:
  `kani::assert(attr, stringify!(attrCopy)); std::mem::forget(n); ...` -/
  | execPostconds (attr : RExpr) (attrCopy : String) (forgets : List String)
  /-- Any other token stream. -/
  | raw (s : String)

end

mutual

inductive Pat : Type where
  | constP (s : String)
  | identP (name : String)
  | litP (s : String)
  | refP (isMut : Bool) (p : Pat)
  | tupleP (ps : Pats)
  | sliceP (ps : Pats)
  | pathP (segs : List String)
  | orP
  | restP
  | wildP
  | parenP (p : Pat)
  | rangeP
  | structP (spath : List String) (fields : FieldPats) (hasRest : Bool)
  | verbatimP
  | typeP
  | tupleStructP

inductive Pats : Type where
  | nil
  | cons (p : Pat) (ps : Pats)

inductive FieldPats : Type where
  | fnil
  | fcons (member : String) (colon : Bool) (p : Pat) (fs : FieldPats)

end

/-- Models `mk_err` in `pat_to_expr`: emit the diagnostic, then `unreachable!()`. -/
def mkPatErr (typ : String) : PM α :=
  PM.bind' (PM.emitErr ("`" ++ typ ++ "` patterns are not supported for functions with contracts"))
    (fun _ => PM.fatal "unreachable")

mutual

/-- Translation of `pat_to_expr` (contracts.rs): turn an argument pattern
into the expression forwarding that argument. -/
def pat_to_expr : Pat → PM RExpr
  | .constP s => PM.pure' (.constE s)
  | .identP id => PM.pure' (.verbatimIdent id)
  | .litP s => PM.pure' (.lit s)
  | .refP m p => PM.bind' (pat_to_expr p) (fun e => PM.pure' (.refE m e))
  | .tupleP ps => PM.bind' (pats_to_exprs ps) (fun es => PM.pure' (.tuple es))
  | .sliceP ps =>
      PM.bind' (pats_to_exprs ps) (fun es => PM.pure' (.refE false (.array es)))
  | .pathP segs => PM.pure' (.path segs)
  | .orP => mkPatErr "or"
  | .restP => mkPatErr "rest"
  | .wildP => mkPatErr "wildcard"
  | .parenP p => pat_to_expr p
  | .rangeP => mkPatErr "range"
  | .structP sp fs hasRest =>
      if hasRest then mkPatErr ".."
      else PM.bind' (fields_to_values fs) (fun vs => PM.pure' (.structE sp vs))
  | .verbatimP => mkPatErr "verbatim"
  | .typeP => mkPatErr "type"
  | .tupleStructP => mkPatErr "tuple struct"

def pats_to_exprs : Pats → PM RExprs
  | .nil => PM.pure' .nil
  | .cons p ps =>
      PM.bind' (pat_to_expr p) (fun e =>
        PM.bind' (pats_to_exprs ps) (fun es => PM.pure' (.cons e es)))

def fields_to_values : FieldPats → PM RFields
  | .fnil => PM.pure' .fnil
  | .fcons m c p fs =>
      PM.bind' (pat_to_expr p) (fun e =>
        PM.bind' (fields_to_values fs) (fun vs => PM.pure' (.fcons m c e vs)))

end

mutual

/-- The pattern classes `pat_to_expr` accepts (recursively). -/
def patSupported : Pat → Bool
  | .constP _ => true
  | .identP _ => true
  | .litP _ => true
  | .refP _ p => patSupported p
  | .tupleP ps => patsSupported ps
  | .sliceP ps => patsSupported ps
  | .pathP _ => true
  | .orP => false
  | .restP => false
  | .wildP => false
  | .parenP p => patSupported p
  | .rangeP => false
  | .structP _ fs hasRest => !hasRest && fieldPatsSupported fs
  | .verbatimP => false
  | .typeP => false
  | .tupleStructP => false

def patsSupported : Pats → Bool
  | .nil => true
  | .cons p ps => patSupported p && patsSupported ps

def fieldPatsSupported : FieldPats → Bool
  | .fnil => true
  | .fcons _ _ p fs => patSupported p && fieldPatsSupported fs

end

/-- The diagnostic text `mk_err` produces for pattern class `typ`. -/
def badPatMsg (typ : String) : String :=
  "`" ++ typ ++ "` patterns are not supported for functions with contracts"

/-- The pattern-class names that `pat_to_expr` reports as unsupported. -/
def badPatTypes : List String :=
  ["or", "rest", "wildcard", "range", "..", "verbatim", "type", "tuple struct"]

/-- One entry of `Signature::inputs`. -/
inductive FnArgM : Type where
  | receiver
  | typed (p : Pat)

/-- Translation of `exprs_for_args`: the argument-forwarding expressions for
the recursion wrapper's and the replace-dummy's call. -/
def exprs_for_args : List FnArgM → PM (List RExpr)
  | [] => PM.pure' []
  | a :: rest =>
      PM.bind'
        (match a with
          | .receiver => PM.pure' (RExpr.verbatimIdent "self")
          | .typed p => pat_to_expr p)
        (fun e => PM.bind' (exprs_for_args rest) (fun es => PM.pure' (e :: es)))

mutual

/-- Models `pat_to_expr` succeeds (emitting nothing) exactly on supported patterns
and otherwise stops at the first unsupported pattern class with the
`mk_err` diagnostic for it. -/
theorem pat_to_expr_total (p : Pat) (s0 : List String) :
    (patSupported p = true → ∃ e, pat_to_expr p s0 = (Except.ok e, s0)) ∧
    (patSupported p = false → ∃ typ, typ ∈ badPatTypes ∧
      pat_to_expr p s0 = (Except.error "unreachable", s0 ++ [badPatMsg typ])) := by
  cases p with
  | constP s => exact ⟨fun _ => ⟨_, rfl⟩, fun h => by simp [patSupported] at h⟩
  | identP s => exact ⟨fun _ => ⟨_, rfl⟩, fun h => by simp [patSupported] at h⟩
  | litP s => exact ⟨fun _ => ⟨_, rfl⟩, fun h => by simp [patSupported] at h⟩
  | refP m p =>
      obtain ⟨hs, hf⟩ := pat_to_expr_total p s0
      constructor
      · intro h
        simp only [patSupported] at h
        obtain ⟨e, he⟩ := hs h
        exact ⟨RExpr.refE m e, by simp [pat_to_expr, PM.bind', he, PM.pure']⟩
      · intro h
        simp only [patSupported] at h
        obtain ⟨typ, ht, he⟩ := hf h
        exact ⟨typ, ht, by simp [pat_to_expr, PM.bind', he]⟩
  | tupleP ps =>
      obtain ⟨hs, hf⟩ := pats_to_exprs_total ps s0
      constructor
      · intro h
        simp only [patSupported] at h
        obtain ⟨es, he⟩ := hs h
        exact ⟨RExpr.tuple es, by simp [pat_to_expr, PM.bind', he, PM.pure']⟩
      · intro h
        simp only [patSupported] at h
        obtain ⟨typ, ht, he⟩ := hf h
        exact ⟨typ, ht, by simp [pat_to_expr, PM.bind', he]⟩
  | sliceP ps =>
      obtain ⟨hs, hf⟩ := pats_to_exprs_total ps s0
      constructor
      · intro h
        simp only [patSupported] at h
        obtain ⟨es, he⟩ := hs h
        exact ⟨RExpr.refE false (RExpr.array es),
          by simp [pat_to_expr, PM.bind', he, PM.pure']⟩
      · intro h
        simp only [patSupported] at h
        obtain ⟨typ, ht, he⟩ := hf h
        exact ⟨typ, ht, by simp [pat_to_expr, PM.bind', he]⟩
  | pathP segs => exact ⟨fun _ => ⟨_, rfl⟩, fun h => by simp [patSupported] at h⟩
  | orP =>
      refine ⟨fun h => by simp [patSupported] at h, fun _ => ⟨"or", by decide, rfl⟩⟩
  | restP =>
      refine ⟨fun h => by simp [patSupported] at h, fun _ => ⟨"rest", by decide, rfl⟩⟩
  | wildP =>
      refine ⟨fun h => by simp [patSupported] at h, fun _ => ⟨"wildcard", by decide, rfl⟩⟩
  | parenP p =>
      obtain ⟨hs, hf⟩ := pat_to_expr_total p s0
      constructor
      · intro h
        simp only [patSupported] at h
        obtain ⟨e, he⟩ := hs h
        exact ⟨e, by simpa [pat_to_expr] using he⟩
      · intro h
        simp only [patSupported] at h
        obtain ⟨typ, ht, he⟩ := hf h
        exact ⟨typ, ht, by simpa [pat_to_expr] using he⟩
  | rangeP =>
      refine ⟨fun h => by simp [patSupported] at h, fun _ => ⟨"range", by decide, rfl⟩⟩
  | structP sp fs hasRest =>
      obtain ⟨hs, hf⟩ := fields_to_values_total fs s0
      cases hasRest with
      | true =>
          refine ⟨fun h => by simp [patSupported] at h, fun _ => ⟨"..", by decide, ?_⟩⟩
          simp [pat_to_expr, mkPatErr, PM.bind', PM.emitErr, PM.fatal, badPatMsg]
      | false =>
          constructor
          · intro h
            simp only [patSupported, Bool.not_false, Bool.true_and] at h
            obtain ⟨vs, he⟩ := hs h
            exact ⟨RExpr.structE sp vs,
              by simp [pat_to_expr, PM.bind', he, PM.pure']⟩
          · intro h
            simp only [patSupported, Bool.not_false, Bool.true_and] at h
            obtain ⟨typ, ht, he⟩ := hf h
            exact ⟨typ, ht, by simp [pat_to_expr, PM.bind', he]⟩
  | verbatimP =>
      refine ⟨fun h => by simp [patSupported] at h, fun _ => ⟨"verbatim", by decide, rfl⟩⟩
  | typeP =>
      refine ⟨fun h => by simp [patSupported] at h, fun _ => ⟨"type", by decide, rfl⟩⟩
  | tupleStructP =>
      refine ⟨fun h => by simp [patSupported] at h,
        fun _ => ⟨"tuple struct", by decide, rfl⟩⟩

theorem pats_to_exprs_total (ps : Pats) (s0 : List String) :
    (patsSupported ps = true → ∃ es, pats_to_exprs ps s0 = (Except.ok es, s0)) ∧
    (patsSupported ps = false → ∃ typ, typ ∈ badPatTypes ∧
      pats_to_exprs ps s0 = (Except.error "unreachable", s0 ++ [badPatMsg typ])) := by
  cases ps with
  | nil => exact ⟨fun _ => ⟨_, rfl⟩, fun h => by simp [patsSupported] at h⟩
  | cons p ps =>
      obtain ⟨hs1, hf1⟩ := pat_to_expr_total p s0
      constructor
      · intro h
        simp only [patsSupported, Bool.and_eq_true] at h
        obtain ⟨e, he⟩ := hs1 h.1
        obtain ⟨hs2, _⟩ := pats_to_exprs_total ps s0
        obtain ⟨es, hes⟩ := hs2 h.2
        exact ⟨RExprs.cons e es,
          by simp [pats_to_exprs, PM.bind', he, hes, PM.pure']⟩
      · intro h
        rcases hp : patSupported p with _ | _
        · obtain ⟨typ, ht, he⟩ := hf1 hp
          exact ⟨typ, ht, by simp [pats_to_exprs, PM.bind', he]⟩
        · have hps : patsSupported ps = false := by
            simp only [patsSupported, hp, Bool.true_and] at h
            exact h
          obtain ⟨e, he⟩ := hs1 hp
          obtain ⟨_, hf2⟩ := pats_to_exprs_total ps s0
          obtain ⟨typ, ht, hes⟩ := hf2 hps
          exact ⟨typ, ht, by simp [pats_to_exprs, PM.bind', he, hes]⟩

theorem fields_to_values_total (fs : FieldPats) (s0 : List String) :
    (fieldPatsSupported fs = true →
      ∃ vs, fields_to_values fs s0 = (Except.ok vs, s0)) ∧
    (fieldPatsSupported fs = false → ∃ typ, typ ∈ badPatTypes ∧
      fields_to_values fs s0 = (Except.error "unreachable", s0 ++ [badPatMsg typ])) := by
  cases fs with
  | fnil => exact ⟨fun _ => ⟨_, rfl⟩, fun h => by simp [fieldPatsSupported] at h⟩
  | fcons m c p fs =>
      obtain ⟨hs1, hf1⟩ := pat_to_expr_total p s0
      constructor
      · intro h
        simp only [fieldPatsSupported, Bool.and_eq_true] at h
        obtain ⟨e, he⟩ := hs1 h.1
        obtain ⟨hs2, _⟩ := fields_to_values_total fs s0
        obtain ⟨vs, hvs⟩ := hs2 h.2
        exact ⟨RFields.fcons m c e vs,
          by simp [fields_to_values, PM.bind', he, hvs, PM.pure']⟩
      · intro h
        rcases hp : patSupported p with _ | _
        · obtain ⟨typ, ht, he⟩ := hf1 hp
          exact ⟨typ, ht, by simp [fields_to_values, PM.bind', he]⟩
        · have hps : fieldPatsSupported fs = false := by
            simp only [fieldPatsSupported, hp, Bool.true_and] at h
            exact h
          obtain ⟨e, he⟩ := hs1 hp
          obtain ⟨_, hf2⟩ := fields_to_values_total fs s0
          obtain ⟨typ, ht, hvs⟩ := hf2 hps
          exact ⟨typ, ht, by simp [fields_to_values, PM.bind', he, hvs]⟩

end

/-- C10: building the argument-forwarding expression for a parameter of a
contracted function (`pat_to_expr`, used by `exprs_for_args` for the
recursion wrapper's and the replace-dummy's call) succeeds exactly for
identifier, literal, constant, reference, tuple, slice, path, parenthesized
and rest-free struct patterns; a wildcard, or, rest, range, verbatim, type
or tuple-struct pattern (or a struct pattern with a `..` rest) is reported
with the error that such patterns are not supported for functions with
contracts. -/
theorem c10_argument_forwarding_patterns (p : Pat) :
    (patSupported p = true →
      ∃ e, (pat_to_expr p).run = (Except.ok e, []) ∧
        (exprs_for_args [FnArgM.typed p]).run = (Except.ok [e], [])) ∧
    (patSupported p = false → ∃ typ, typ ∈ badPatTypes ∧
      (pat_to_expr p).run = (Except.error "unreachable", [badPatMsg typ])) := by
  obtain ⟨hs, hf⟩ := pat_to_expr_total p []
  constructor
  · intro h
    obtain ⟨e, he⟩ := hs h
    refine ⟨e, he, ?_⟩
    simp [exprs_for_args, PM.bind', PM.run, he, PM.pure']
  · intro h
    obtain ⟨typ, ht, he⟩ := hf h
    exact ⟨typ, ht, by simpa [PM.run] using he⟩

/-- Witness for C10 at one supported and one unsupported pattern. -/
theorem c10_argument_forwarding_patterns_witness :
    (∃ e, (pat_to_expr (Pat.identP "x")).run = (Except.ok e, []) ∧
      (exprs_for_args [FnArgM.typed (Pat.identP "x")]).run = (Except.ok [e], [])) ∧
    (∃ typ, typ ∈ badPatTypes ∧
      (pat_to_expr Pat.wildP).run = (Except.error "unreachable", [badPatMsg typ])) :=
  ⟨(c10_argument_forwarding_patterns (Pat.identP "x")).1 rfl,
   (c10_argument_forwarding_patterns Pat.wildP).2 rfl⟩

/-!  ## Postcondition injector (`PostconditionInjector`) -/

mutual

/-- Translation of `PostconditionInjector::visit_expr_mut` with payload `t`:
every `return` is rewritten into the verbatim block
`{ let result = <sub>; <t> return result; }` (the sub-expression itself
visited first), closures are not entered (the overridden
`visit_expr_closure_mut` is empty), and all other expressions are visited
structurally (`Expr::Verbatim` has no sub-visits in `syn`). -/
def postcondInject (t : Toks) : RExpr → RExpr
  | .retSome e => .injectedRet (postcondInject t e) t
  | .retNone => .injectedRetUnit t
  | .call f args => .call (postcondInject t f) (postcondInjects t args)
  | .path segs => .path segs
  | .lit s => .lit s
  | .binop op l r => .binop op (postcondInject t l) (postcondInject t r)
  | .refE m e => .refE m (postcondInject t e)
  | .tuple es => .tuple (postcondInjects t es)
  | .array es => .array (postcondInjects t es)
  | .structE sp fs => .structE sp (postcondInjectFields t fs)
  | .constE s => .constE s
  | .closure b => .closure b
  | .blockE ss => .blockE (postcondInjects t ss)
  | .verbatimIdent s => .verbatimIdent s
  | .injectedRet b tk => .injectedRet b tk
  | .injectedRetUnit tk => .injectedRetUnit tk

def postcondInjects (t : Toks) : RExprs → RExprs
  | .nil => .nil
  | .cons e es => .cons (postcondInject t e) (postcondInjects t es)

def postcondInjectFields (t : Toks) : RFields → RFields
  | .fnil => .fnil
  | .fcons m c e fs => .fcons m c (postcondInject t e) (postcondInjectFields t fs)

end

mutual

/-- No plain `return` expression is reachable outside a closure (the
guarded `return result` inside an injected verbatim block does not count;
its bound sub-expression is checked recursively). -/
def noBareRet : RExpr → Bool
  | .retSome _ => false
  | .retNone => false
  | .call f args => noBareRet f && noBareRets args
  | .path _ => true
  | .lit _ => true
  | .binop _ l r => noBareRet l && noBareRet r
  | .refE _ e => noBareRet e
  | .tuple es => noBareRets es
  | .array es => noBareRets es
  | .structE _ fs => noBareRetFields fs
  | .constE _ => true
  | .closure _ => true
  | .blockE ss => noBareRets ss
  | .verbatimIdent _ => true
  | .injectedRet b _ => noBareRet b
  | .injectedRetUnit _ => true

def noBareRets : RExprs → Bool
  | .nil => true
  | .cons e es => noBareRet e && noBareRets es

def noBareRetFields : RFields → Bool
  | .fnil => true
  | .fcons _ _ e fs => noBareRet e && noBareRetFields fs

end

mutual

/-- An expression that can come out of parsing source text: it contains no
verbatim block produced by a previous run of the injector. -/
def srcExpr : RExpr → Bool
  | .retSome e => srcExpr e
  | .retNone => true
  | .call f args => srcExpr f && srcExprs args
  | .path _ => true
  | .lit _ => true
  | .binop _ l r => srcExpr l && srcExpr r
  | .refE _ e => srcExpr e
  | .tuple es => srcExprs es
  | .array es => srcExprs es
  | .structE _ fs => srcFields fs
  | .constE _ => true
  | .closure b => srcExpr b
  | .blockE ss => srcExprs ss
  | .verbatimIdent _ => true
  | .injectedRet _ _ => false
  | .injectedRetUnit _ => false

def srcExprs : RExprs → Bool
  | .nil => true
  | .cons e es => srcExpr e && srcExprs es

def srcFields : RFields → Bool
  | .fnil => true
  | .fcons _ _ e fs => srcExpr e && srcFields fs

end

mutual

theorem noBareRet_postcondInject (t : Toks) (e : RExpr) (h : srcExpr e = true) :
    noBareRet (postcondInject t e) = true := by
  cases e with
  | retSome e =>
      simp only [srcExpr] at h
      simp [postcondInject, noBareRet, noBareRet_postcondInject t e h]
  | retNone => simp [postcondInject, noBareRet]
  | call f args =>
      simp only [srcExpr, Bool.and_eq_true] at h
      simp [postcondInject, noBareRet, noBareRet_postcondInject t f h.1,
        noBareRets_postcondInjects t args h.2]
  | path segs => simp [postcondInject, noBareRet]
  | lit s => simp [postcondInject, noBareRet]
  | binop op l r =>
      simp only [srcExpr, Bool.and_eq_true] at h
      simp [postcondInject, noBareRet, noBareRet_postcondInject t l h.1,
        noBareRet_postcondInject t r h.2]
  | refE m e =>
      simp only [srcExpr] at h
      simp [postcondInject, noBareRet, noBareRet_postcondInject t e h]
  | tuple es =>
      simp only [srcExpr] at h
      simp [postcondInject, noBareRet, noBareRets_postcondInjects t es h]
  | array es =>
      simp only [srcExpr] at h
      simp [postcondInject, noBareRet, noBareRets_postcondInjects t es h]
  | structE sp fs =>
      simp only [srcExpr] at h
      simp [postcondInject, noBareRet, noBareRetFields_postcondInjectFields t fs h]
  | constE s => simp [postcondInject, noBareRet]
  | closure b => simp [postcondInject, noBareRet]
  | blockE ss =>
      simp only [srcExpr] at h
      simp [postcondInject, noBareRet, noBareRets_postcondInjects t ss h]
  | verbatimIdent s => simp [postcondInject, noBareRet]
  | injectedRet b tk => simp [srcExpr] at h
  | injectedRetUnit tk => simp [srcExpr] at h

theorem noBareRets_postcondInjects (t : Toks) (es : RExprs) (h : srcExprs es = true) :
    noBareRets (postcondInjects t es) = true := by
  cases es with
  | nil => simp [postcondInjects, noBareRets]
  | cons e es =>
      simp only [srcExprs, Bool.and_eq_true] at h
      simp [postcondInjects, noBareRets, noBareRet_postcondInject t e h.1,
        noBareRets_postcondInjects t es h.2]

theorem noBareRetFields_postcondInjectFields (t : Toks) (fs : RFields)
    (h : srcFields fs = true) :
    noBareRetFields (postcondInjectFields t fs) = true := by
  cases fs with
  | fnil => simp [postcondInjectFields, noBareRetFields]
  | fcons m c e fs =>
      simp only [srcFields, Bool.and_eq_true] at h
      simp [postcondInjectFields, noBareRetFields, noBareRet_postcondInject t e h.1,
        noBareRetFields_postcondInjectFields t fs h.2]

end

/-- C5: the postcondition injector rewrites every early `return sub` into the
verbatim block `{ let result = <sub rewritten>; <toks> return result; }`
(recursing into the return's own sub-expression, a bare `return` getting the
block without the binding), never descends into a nested closure (whose body
is returned untouched), and on any source body the result has no unguarded
`return` left outside closures. -/
theorem c5_postcondition_injector (t : Toks) (e : RExpr) :
    postcondInject t (RExpr.retSome e) =
      RExpr.injectedRet (postcondInject t e) t ∧
    postcondInject t RExpr.retNone = RExpr.injectedRetUnit t ∧
    postcondInject t (RExpr.closure e) = RExpr.closure e ∧
    (srcExpr e = true → noBareRet (postcondInject t e) = true) :=
  ⟨rfl, rfl, rfl, fun h => noBareRet_postcondInject t e h⟩

/-- Witness for C5 at a two-branch body with a `return` in each branch and a
closure containing a `return` of its own. -/
theorem c5_postcondition_injector_witness :
    postcondInject (Toks.raw "T") (RExpr.retSome (RExpr.path ["x"])) =
      RExpr.injectedRet (postcondInject (Toks.raw "T") (RExpr.path ["x"]))
        (Toks.raw "T") ∧
    postcondInject (Toks.raw "T") RExpr.retNone =
      RExpr.injectedRetUnit (Toks.raw "T") ∧
    postcondInject (Toks.raw "T")
        (RExpr.closure (RExpr.retSome (RExpr.path ["y"]))) =
      RExpr.closure (RExpr.retSome (RExpr.path ["y"])) ∧
    noBareRet (postcondInject (Toks.raw "T") (RExpr.path ["x"])) = true := by
  have h := c5_postcondition_injector (Toks.raw "T") (RExpr.path ["x"])
  refine ⟨h.1, h.2.1, ?_, h.2.2.2 rfl⟩
  have h2 := c5_postcondition_injector (Toks.raw "T")
    (RExpr.retSome (RExpr.path ["y"]))
  exact h2.2.2.1

/-!  ## Old-value lifter (`OldVisitor`, `OldLifter`, `OldDenier`) -/

/-- The diagnostic `OldDenier::trigger` emits for a nested `old`. -/
def oldNestedMsg : String :=
  "Nested calls to `old` are prohibited, because they are not well defined (what would it even mean?)"

/-- The trigger test of `OldVisitor::visit_expr_mut`: the callee is a plain
one-segment path `old` (no qself, no leading colon). -/
def isOldPath : RExpr → Bool
  | .path segs => segs == ["old"]
  | _ => false

def rexprsLen : RExprs → Nat
  | .nil => 0
  | .cons _ es => rexprsLen es + 1

/-- The `assert_spanned_err!(args.len() == 1, call)` check on a triggered
`old(..)` call: emit the assertion diagnostic and abort when violated. -/
def oldArityCheck (args : RExprs) : PM Unit :=
  if rexprsLen args = 1 then PM.pure' ()
  else
    PM.bind' (PM.emitErr "Failed assertion args.len() == 1")
      (fun _ => PM.fatal "assertion failed")

mutual

/-- Models `OldVisitor<OldDenier>::visit_expr_mut`: scan for `old(..)` calls; at
each one emit the nesting diagnostic (the denier's `trigger`) and stop
descending into that call; elsewhere recurse into all children
(`Expr::Verbatim` has no children to visit in `syn`). -/
def oldDenyExpr : RExpr → PM Unit
  | .call f args =>
      if isOldPath f then
        PM.bind' (oldArityCheck args) (fun _ => PM.emitErr oldNestedMsg)
      else PM.bind' (oldDenyExpr f) (fun _ => oldDenyExprs args)
  | .binop _ l r => PM.bind' (oldDenyExpr l) (fun _ => oldDenyExpr r)
  | .refE _ e => oldDenyExpr e
  | .tuple es => oldDenyExprs es
  | .array es => oldDenyExprs es
  | .structE _ fs => oldDenyFields fs
  | .retSome e => oldDenyExpr e
  | .closure b => oldDenyExpr b
  | .blockE ss => oldDenyExprs ss
  | _ => PM.pure' ()

def oldDenyExprs : RExprs → PM Unit
  | .nil => PM.pure' ()
  | .cons e es => PM.bind' (oldDenyExpr e) (fun _ => oldDenyExprs es)

def oldDenyFields : RFields → PM Unit
  | .fnil => PM.pure' ()
  | .fcons _ _ e fs => PM.bind' (oldDenyExpr e) (fun _ => oldDenyFields fs)

end

/-- Models `OldLifter::generate_identifier_for`. -/
def oldIdentFor (index : Nat) : String := "old_" ++ toString index

mutual

/-- Models `OldVisitor<OldLifter>::visit_expr_mut`: at each `old(e)` call (in
encounter order) first deny nested `old`s inside `e`, then append the
original `e` to the lifter's table and replace the whole call by a path
expression naming the fresh identifier `old_<index>`; all other
expressions are visited structurally, threading the table. -/
def oldLiftExpr (tbl : List RExpr) : RExpr → PM (List RExpr × RExpr)
  | .call f args =>
      if isOldPath f then
        PM.bind' (oldArityCheck args) (fun _ =>
          match args with
          | .cons e .nil =>
              PM.bind' (oldDenyExpr e) (fun _ =>
                PM.pure' (tbl ++ [e], RExpr.path [oldIdentFor tbl.length]))
          | _ => PM.fatal "unreachable")
      else
        PM.bind' (oldLiftExpr tbl f) (fun r1 =>
          PM.bind' (oldLiftExprs r1.1 args) (fun r2 =>
            PM.pure' (r2.1, RExpr.call r1.2 r2.2)))
  | .binop op l r =>
      PM.bind' (oldLiftExpr tbl l) (fun r1 =>
        PM.bind' (oldLiftExpr r1.1 r) (fun r2 =>
          PM.pure' (r2.1, RExpr.binop op r1.2 r2.2)))
  | .refE m e =>
      PM.bind' (oldLiftExpr tbl e) (fun r => PM.pure' (r.1, RExpr.refE m r.2))
  | .tuple es =>
      PM.bind' (oldLiftExprs tbl es) (fun r => PM.pure' (r.1, RExpr.tuple r.2))
  | .array es =>
      PM.bind' (oldLiftExprs tbl es) (fun r => PM.pure' (r.1, RExpr.array r.2))
  | .structE sp fs =>
      PM.bind' (oldLiftFields tbl fs) (fun r =>
        PM.pure' (r.1, RExpr.structE sp r.2))
  | .retSome e =>
      PM.bind' (oldLiftExpr tbl e) (fun r => PM.pure' (r.1, RExpr.retSome r.2))
  | .closure b =>
      PM.bind' (oldLiftExpr tbl b) (fun r => PM.pure' (r.1, RExpr.closure r.2))
  | .blockE ss =>
      PM.bind' (oldLiftExprs tbl ss) (fun r => PM.pure' (r.1, RExpr.blockE r.2))
  | e => PM.pure' (tbl, e)

def oldLiftExprs (tbl : List RExpr) : RExprs → PM (List RExpr × RExprs)
  | .nil => PM.pure' (tbl, .nil)
  | .cons e es =>
      PM.bind' (oldLiftExpr tbl e) (fun r1 =>
        PM.bind' (oldLiftExprs r1.1 es) (fun r2 =>
          PM.pure' (r2.1, RExprs.cons r1.2 r2.2)))

def oldLiftFields (tbl : List RExpr) : RFields → PM (List RExpr × RFields)
  | .fnil => PM.pure' (tbl, .fnil)
  | .fcons m c e fs =>
      PM.bind' (oldLiftExpr tbl e) (fun r1 =>
        PM.bind' (oldLiftFields r1.1 fs) (fun r2 =>
          PM.pure' (r2.1, RFields.fcons m c r1.2 r2.2)))

end

mutual

/-- An expression that contains no `old(..)` marker call anywhere. -/
def noOldCall : RExpr → Bool
  | .call f args => !isOldPath f && noOldCall f && noOldCalls args
  | .binop _ l r => noOldCall l && noOldCall r
  | .refE _ e => noOldCall e
  | .tuple es => noOldCalls es
  | .array es => noOldCalls es
  | .structE _ fs => noOldCallFields fs
  | .retSome e => noOldCall e
  | .closure b => noOldCall b
  | .blockE ss => noOldCalls ss
  | _ => true

def noOldCalls : RExprs → Bool
  | .nil => true
  | .cons e es => noOldCall e && noOldCalls es

def noOldCallFields : RFields → Bool
  | .fnil => true
  | .fcons _ _ e fs => noOldCall e && noOldCallFields fs

end

mutual

/-- The denier emits nothing on an expression without `old` calls. -/
theorem oldDenyExpr_clean (e : RExpr) (h : noOldCall e = true) (s0 : List String) :
    oldDenyExpr e s0 = (Except.ok (), s0) := by
  cases e with
  | call f args =>
      simp only [noOldCall, Bool.and_eq_true, Bool.not_eq_eq_eq_not, Bool.not_true] at h
      obtain ⟨⟨hop, hf⟩, hargs⟩ := h
      simp [oldDenyExpr, hop, PM.bind', oldDenyExpr_clean f hf s0,
        oldDenyExprs_clean args hargs s0]
  | binop op l r =>
      simp only [noOldCall, Bool.and_eq_true] at h
      simp [oldDenyExpr, PM.bind', oldDenyExpr_clean l h.1 s0,
        oldDenyExpr_clean r h.2 s0]
  | refE m e =>
      simp only [noOldCall] at h
      simp [oldDenyExpr, oldDenyExpr_clean e h s0]
  | tuple es =>
      simp only [noOldCall] at h
      simp [oldDenyExpr, oldDenyExprs_clean es h s0]
  | array es =>
      simp only [noOldCall] at h
      simp [oldDenyExpr, oldDenyExprs_clean es h s0]
  | structE sp fs =>
      simp only [noOldCall] at h
      simp [oldDenyExpr, oldDenyFields_clean fs h s0]
  | retSome e =>
      simp only [noOldCall] at h
      simp [oldDenyExpr, oldDenyExpr_clean e h s0]
  | closure b =>
      simp only [noOldCall] at h
      simp [oldDenyExpr, oldDenyExpr_clean b h s0]
  | blockE ss =>
      simp only [noOldCall] at h
      simp [oldDenyExpr, oldDenyExprs_clean ss h s0]
  | path segs => simp [oldDenyExpr, PM.pure']
  | lit s => simp [oldDenyExpr, PM.pure']
  | constE s => simp [oldDenyExpr, PM.pure']
  | retNone => simp [oldDenyExpr, PM.pure']
  | verbatimIdent s => simp [oldDenyExpr, PM.pure']
  | injectedRet b tk => simp [oldDenyExpr, PM.pure']
  | injectedRetUnit tk => simp [oldDenyExpr, PM.pure']

theorem oldDenyExprs_clean (es : RExprs) (h : noOldCalls es = true) (s0 : List String) :
    oldDenyExprs es s0 = (Except.ok (), s0) := by
  cases es with
  | nil => simp [oldDenyExprs, PM.pure']
  | cons e es =>
      simp only [noOldCalls, Bool.and_eq_true] at h
      simp [oldDenyExprs, PM.bind', oldDenyExpr_clean e h.1 s0,
        oldDenyExprs_clean es h.2 s0]

theorem oldDenyFields_clean (fs : RFields) (h : noOldCallFields fs = true) (s0 : List String) :
    oldDenyFields fs s0 = (Except.ok (), s0) := by
  cases fs with
  | fnil => simp [oldDenyFields, PM.pure']
  | fcons m c e fs =>
      simp only [noOldCallFields, Bool.and_eq_true] at h
      simp [oldDenyFields, PM.bind', oldDenyExpr_clean e h.1 s0,
        oldDenyFields_clean fs h.2 s0]

end

/-- The `old(e)` marker call, as parsed from a postcondition. -/
def oldCall (e : RExpr) : RExpr :=
  RExpr.call (RExpr.path ["old"]) (RExprs.cons e RExprs.nil)

/-- C4: on a postcondition with a pre-state marker nested in another
marker's argument (`old(old(x))`) the lifter emits the nesting diagnostic
at the inner marker; on non-nested markers (`old(e1) + old(e2)`) it emits
nothing and produces one fresh binding per marker in encounter order
(`old_0` bound to `e1`, `old_1` bound to `e2`), each marker call replaced
in place by a path naming its fresh identifier. -/
theorem c4_old_lifter (e1 e2 : RExpr)
    (h1 : noOldCall e1 = true) (h2 : noOldCall e2 = true) :
    (oldLiftExpr [] (RExpr.binop "+" (oldCall e1) (oldCall e2))).run =
      (Except.ok ([e1, e2],
        RExpr.binop "+" (RExpr.path ["old_0"]) (RExpr.path ["old_1"])), []) ∧
    (oldLiftExpr [] (oldCall (oldCall (RExpr.path ["x"])))).run =
      (Except.ok ([oldCall (RExpr.path ["x"])], RExpr.path ["old_0"]),
       [oldNestedMsg]) := by
  constructor
  · have d1 := oldDenyExpr_clean e1 h1 []
    have d2 := oldDenyExpr_clean e2 h2 []
    simp [PM.run, oldLiftExpr, oldCall, isOldPath, oldArityCheck, rexprsLen,
      PM.bind', PM.pure', d1, d2, oldIdentFor]
    exact ⟨rfl, rfl⟩
  · simp [PM.run, oldLiftExpr, oldCall, isOldPath, oldArityCheck, rexprsLen,
      PM.bind', PM.pure', PM.emitErr, oldDenyExpr, oldIdentFor]
    exact rfl

/-- Witness for C4 at `old(a) + old(b)`. -/
theorem c4_old_lifter_witness :
    (oldLiftExpr [] (RExpr.binop "+" (oldCall (RExpr.path ["a"]))
        (oldCall (RExpr.path ["b"])))).run =
      (Except.ok ([RExpr.path ["a"], RExpr.path ["b"]],
        RExpr.binop "+" (RExpr.path ["old_0"]) (RExpr.path ["old_1"])), []) ∧
    (oldLiftExpr [] (oldCall (oldCall (RExpr.path ["x"])))).run =
      (Except.ok ([oldCall (RExpr.path ["x"])], RExpr.path ["old_0"]),
       [oldNestedMsg]) :=
  c4_old_lifter (RExpr.path ["a"]) (RExpr.path ["b"]) rfl rfl

/-!  ## Token hashing and generated-function identity
(`hash_of_token_stream`, `short_hash_of_token_stream`,
`identifier_for_generated_function`) -/

/-- Models `proc_macro2::Delimiter`. -/
inductive Delim : Type where
  | parenD
  | braceD
  | bracketD
  | noneD
deriving DecidableEq

mutual

/-- A `proc_macro2::TokenTree`, with its span kept as a `Nat` tag (spans
differ between two expansions of the same source text). -/
inductive TokTree : Type where
  | ident (s : String) (span : Nat)
  /-- Models `spacing` is `Punct::spacing` (joint or alone). -/
  | punct (c : Char) (spacing : Bool) (span : Nat)
  | group (d : Delim) (stream : TokStream) (span : Nat)
  | litT (text : String) (span : Nat)

inductive TokStream : Type where
  | nil
  | cons (t : TokTree) (ts : TokStream)

end

/-- The `Hasher` the fold drives: the four `hash` operations performed by
`hash_of_token_stream` on the hasher state, plus `finish`.  `DefaultHasher`
is one concrete instance; the claims only use that the steps are applied
deterministically to the span-free token structure. -/
structure HashSteps : Type where
  hashIdent : Nat → String → Nat
  hashChar : Nat → Char → Nat
  hashDelim : Nat → Delim → Nat
  hashLit : Nat → String → Nat
  finish : Nat → Nat
  initSt : Nat

mutual

/-- Translation of `hash_of_token_stream`: fold the hasher over the stream;
an ident hashes its string, a punct its `as_char()`, a group the
discriminant of its delimiter followed by its sub-stream, a literal its
rendered text.  Spans (and punct spacing) are never fed to the hasher. -/
def hashTokTree (hs : HashSteps) (h : Nat) : TokTree → Nat
  | .ident s _ => hs.hashIdent h s
  | .punct c _ _ => hs.hashChar h c
  | .group d stream _ => hashTokStream hs (hs.hashDelim h d) stream
  | .litT text _ => hs.hashLit h text

def hashTokStream (hs : HashSteps) (h : Nat) : TokStream → Nat
  | .nil => h
  | .cons t ts => hashTokStream hs (hashTokTree hs h t) ts

end

/-- Translation of `short_hash_of_token_stream`: run the default hasher
over the stream, `finish`, and keep six hex digits. -/
def short_hash_of_token_stream (hs : HashSteps) (stream : TokStream) : Nat :=
  hs.finish (hashTokStream hs hs.initSt stream) % 0x1000000

/-- Lowercase hex rendering of `{hash:x}`. -/
def hexOfNat (n : Nat) : String := String.mk (Nat.toDigits 16 n)

/-- Translation of `identifier_for_generated_function`:
`format!("{}_{purpose}_{hash:x}", related_function.sig.ident)`. -/
def identifier_for_generated_function (relatedName purpose : String) (hash : Nat) :
    String :=
  relatedName ++ "_" ++ purpose ++ "_" ++ hexOfNat hash

mutual

/-- Forget spans (the only part of a token tree that differs between two
expansions of byte-identical source). -/
def eraseSpanTree : TokTree → TokTree
  | .ident s _ => .ident s 0
  | .punct c sp _ => .punct c sp 0
  | .group d st _ => .group d (eraseSpanStream st) 0
  | .litT t _ => .litT t 0

def eraseSpanStream : TokStream → TokStream
  | .nil => .nil
  | .cons t ts => .cons (eraseSpanTree t) (eraseSpanStream ts)

end

mutual

theorem hashTokTree_eraseSpan (hs : HashSteps) (t1 t2 : TokTree)
    (h : eraseSpanTree t1 = eraseSpanTree t2) (st : Nat) :
    hashTokTree hs st t1 = hashTokTree hs st t2 := by
  cases t1 with
  | ident s sp =>
      cases t2 with
      | ident s2 sp2 =>
          simp only [eraseSpanTree, TokTree.ident.injEq] at h
          simp [hashTokTree, h.1]
      | punct c2 sp2 s2 => simp [eraseSpanTree] at h
      | group d2 st2 s2 => simp [eraseSpanTree] at h
      | litT t2 s2 => simp [eraseSpanTree] at h
  | punct c sp s =>
      cases t2 with
      | ident s2 sp2 => simp [eraseSpanTree] at h
      | punct c2 sp2 s2 =>
          simp only [eraseSpanTree, TokTree.punct.injEq] at h
          simp [hashTokTree, h.1]
      | group d2 st2 s2 => simp [eraseSpanTree] at h
      | litT t2 s2 => simp [eraseSpanTree] at h
  | group d stm s =>
      cases t2 with
      | ident s2 sp2 => simp [eraseSpanTree] at h
      | punct c2 sp2 s2 => simp [eraseSpanTree] at h
      | group d2 stm2 s2 =>
          simp only [eraseSpanTree, TokTree.group.injEq] at h
          rw [hashTokTree, hashTokTree, h.1]
          exact hashTokStream_eraseSpan hs stm stm2 h.2.1 _
      | litT t2 s2 => simp [eraseSpanTree] at h
  | litT t s =>
      cases t2 with
      | ident s2 sp2 => simp [eraseSpanTree] at h
      | punct c2 sp2 s2 => simp [eraseSpanTree] at h
      | group d2 st2 s2 => simp [eraseSpanTree] at h
      | litT t2 s2 =>
          simp only [eraseSpanTree, TokTree.litT.injEq] at h
          simp [hashTokTree, h.1]

theorem hashTokStream_eraseSpan (hs : HashSteps) (ts1 ts2 : TokStream)
    (h : eraseSpanStream ts1 = eraseSpanStream ts2) (st : Nat) :
    hashTokStream hs st ts1 = hashTokStream hs st ts2 := by
  cases ts1 with
  | nil =>
      cases ts2 with
      | nil => rfl
      | cons t2 rest2 => simp [eraseSpanStream] at h
  | cons t rest =>
      cases ts2 with
      | nil => simp [eraseSpanStream] at h
      | cons t2 rest2 =>
          simp only [eraseSpanStream, TokStream.cons.injEq] at h
          rw [hashTokStream, hashTokStream,
            hashTokTree_eraseSpan hs t t2 h.1 st]
          exact hashTokStream_eraseSpan hs rest rest2 h.2 _

end

/-- C8: a generated sibling's name is a pure function of the original
function's name, the purpose tag and the short hash of the item's token
sequence: two expansion runs over the same source (token streams equal up
to spans) produce byte-identical identifiers, the identifier has the shape
`<name>_<purpose>_<hash:x>`, and the hash fits in six hex digits. -/
theorem c8_generated_name_determinism (hs : HashSteps) (name purpose : String)
    (item1 item2 : TokStream)
    (h : eraseSpanStream item1 = eraseSpanStream item2) :
    identifier_for_generated_function name purpose
        (short_hash_of_token_stream hs item1) =
      identifier_for_generated_function name purpose
        (short_hash_of_token_stream hs item2) ∧
    short_hash_of_token_stream hs item1 < 0x1000000 ∧
    identifier_for_generated_function name purpose
        (short_hash_of_token_stream hs item1) =
      name ++ "_" ++ purpose ++ "_" ++
        hexOfNat (short_hash_of_token_stream hs item1) := by
  refine ⟨?_, Nat.mod_lt _ (by decide), rfl⟩
  unfold short_hash_of_token_stream
  rw [hashTokStream_eraseSpan hs item1 item2 h]

/-- Witness for C8: the same one-token stream under two distinct spans. -/
theorem c8_generated_name_determinism_witness :
    identifier_for_generated_function "div" "check"
        (short_hash_of_token_stream ⟨fun h _ => h + 1, fun h _ => h, fun h _ => h,
          fun h _ => h, id, 0⟩ (TokStream.cons (TokTree.ident "fn" 3) TokStream.nil)) =
      identifier_for_generated_function "div" "check"
        (short_hash_of_token_stream ⟨fun h _ => h + 1, fun h _ => h, fun h _ => h,
          fun h _ => h, id, 0⟩ (TokStream.cons (TokTree.ident "fn" 7) TokStream.nil)) ∧
    short_hash_of_token_stream ⟨fun h _ => h + 1, fun h _ => h, fun h _ => h,
        fun h _ => h, id, 0⟩ (TokStream.cons (TokTree.ident "fn" 3) TokStream.nil) <
      0x1000000 ∧
    identifier_for_generated_function "div" "check"
        (short_hash_of_token_stream ⟨fun h _ => h + 1, fun h _ => h, fun h _ => h,
          fun h _ => h, id, 0⟩ (TokStream.cons (TokTree.ident "fn" 3) TokStream.nil)) =
      "div" ++ "_" ++ "check" ++ "_" ++
        hexOfNat (short_hash_of_token_stream ⟨fun h _ => h + 1, fun h _ => h,
          fun h _ => h, fun h _ => h, id, 0⟩
          (TokStream.cons (TokTree.ident "fn" 3) TokStream.nil)) :=
  c8_generated_name_determinism _ "div" "check" _ _ rfl

/-!  ## Contract state machine (`ContractFunctionState`, `prepare_header`,
`requires_ensures_alt`) -/

/-- The fragment of `syn::Meta` the state classifier inspects.  A path is
its plain segment list (the classifier's `matches_path` also requires no
leading colon and argument-free segments, which this model has no way to
violate). -/
inductive SynMeta : Type where
  | listM (mpath : List String) (tokens : TokStream)
  | nameValueM (mpath : List String) (value : String)
  | pathM (mpath : List String)

/-- Models `syn::parse2::<Ident>`: a token stream parses as an `Ident` exactly
when it is a single ident token. -/
def parseIdent : TokStream → Option String
  | .cons (.ident s _) .nil => some s
  | _ => none

/-- Translation of `ContractFunctionState`. -/
inductive ContractFunctionState : Type where
  | original
  | untouched
  | check
  | replaceFn
  | replaceDummy
deriving DecidableEq

/-- Translation of `ContractFunctionState::from_attribute` (the `Err`
branch of the ident parse and an unexpected ident both emit and yield no
state; the diagnostic text of the former is `syn`'s own message, modelled
by a fixed string). -/
def from_attribute : SynMeta → PM (Option ContractFunctionState)
  | .listM p toks =>
      if p = ["kanitool", "is_contract_generated"] then
        match parseIdent toks with
        | none =>
            PM.bind' (PM.emitErr "expected identifier") (fun _ => PM.pure' none)
        | some id =>
            if id = "check" then PM.pure' (some .check)
            else if id = "replace" then PM.pure' (some .replaceFn)
            else if id = "replace_dummy" then PM.pure' (some .replaceDummy)
            else
              PM.bind' (PM.emitErr "Expected `check` ident") (fun _ => PM.pure' none)
      else PM.pure' none
  | .nameValueM p _ =>
      if p = ["kanitool", "checked_with"] then PM.pure' (some .original)
      else PM.pure' none
  | .pathM _ => PM.pure' none

/-- Models `item_fn.attrs.iter().find_map(ContractFunctionState::from_attribute)
.unwrap_or(Untouched)`. -/
def functionState : List SynMeta → PM ContractFunctionState
  | [] => PM.pure' .untouched
  | a :: rest =>
      PM.bind' (from_attribute a) (fun r =>
        match r with
        | some st => PM.pure' st
        | none => functionState rest)

/-- Models `ContractFunctionState::emit_tag_attr`. -/
def emit_tag_attr : ContractFunctionState → Bool
  | .untouched => true
  | _ => false

/-- The signature data the translated functions inspect: the ident, the
inputs, and whether a path in the signature's types mentions `self`/`Self`
(the part of `SelfDetector`'s traversal outside this model's structure). -/
structure SigM : Type where
  name : String
  inputs : List FnArgM
  sigSelfTy : Bool

/-- Models `syn::ItemFn` (visibility dropped; `block` is its statement list). -/
structure ItemFnM : Type where
  attrs : List SynMeta
  sig : SigM
  body : RExprs

/-- Translation of `is_probably_impl_fn`: `SelfDetector` finds a `self` or
`Self` path anywhere in the signature (any receiver argument implies one,
since a receiver's type mentions `Self`). -/
def is_probably_impl_fn (sig : SigM) : Bool :=
  sig.sigSelfTy ||
    sig.inputs.any (fun a => match a with | .receiver => true | .typed _ => false)

/-- Models `#[allow(dead_code, unused_variables)]`. -/
def allowAttr : SynMeta :=
  .listM ["allow"]
    (TokStream.cons (.ident "dead_code" 0)
      (TokStream.cons (.punct ',' false 0)
        (TokStream.cons (.ident "unused_variables" 0) TokStream.nil)))

/-- Models `#[kanitool::is_contract_generated(tag)]`. -/
def isContractGeneratedAttr (tag : String) : SynMeta :=
  .listM ["kanitool", "is_contract_generated"]
    (TokStream.cons (.ident tag 0) TokStream.nil)

/-- Models `#[kanitool::checked_with = "name"]`. -/
def checkedWithAttr (name : String) : SynMeta :=
  .nameValueM ["kanitool", "checked_with"] name

/-- Models `#[kanitool::replaced_with = "name"]`. -/
def replacedWithAttr (name : String) : SynMeta :=
  .nameValueM ["kanitool", "replaced_with"] name

/-- Models `#[kanitool::memory_havoc_dummy = "name"]`. -/
def memoryHavocDummyAttr (name : String) : SynMeta :=
  .nameValueM ["kanitool", "memory_havoc_dummy"] name

/-- The signature with its ident swapped (the `swapped!` ident replacement
in `prepare_header` / the `sig.ident = name` assignments). -/
def sigNamed (sig : SigM) (n : String) : SigM :=
  { sig with name := n }

/-- The `call_to_prior` of a replace body. -/
inductive PriorCall : Type where
  /-- the handler's stored body spliced in directly -/
  | bodyCall (stmts : RExprs)
  /-- a call to the replace-dummy (optionally `Self::`-qualified) with the
  forwarded arguments -/
  | dummyCall (selfQual : Bool) (name : String) (args : List RExpr)

/-- The body of an emitted item: each constructor stands for the exact
`quote!` template instantiated at that emission site. -/
inductive GBody : Type where
  /-- the frozen original body, re-emitted verbatim -/
  | origBody (stmts : RExprs)
  /-- Models `{ unreachable!() }` (the replace-dummy body) -/
  | unreachableB
  /-- the recursion-wrapper template:
  `static mut REENTRY: bool = false;
   if unsafe { REENTRY } { <replace>(<alsoArgs>) }
   else { unsafe { REENTRY = true };
          let result = <check>(<args>);
          unsafe { REENTRY = false }; result }`
  — with `args`/`alsoArgs` the two interpolated copies of the forwarded
  argument list and the calls `Self::`-qualified when `selfQual`. -/
  | wrapperB (selfQual : Bool) (checkName replaceName : String)
      (args alsoArgs : List RExpr)
  /-- check body, requires: `kani::assume(<attr>); <prior>` -/
  | checkRequiresB (attr : RExpr) (prior : RExprs)
  /-- check body, ensures: old-bindings, `untracked_deref` argument copies,
  `let result = <priorInjected>;`, then the postcondition execution -/
  | checkEnsuresB (oldVars : List String) (oldExprs : List RExpr)
      (argCopies : List (String × String)) (attr : RExpr) (attrCopy : String)
      (priorInjected : RExprs)
  /-- replace body, requires:
  `kani::assert(<attr>, stringify!(<attrCopy>)); <prior>` -/
  | replaceRequiresB (attr : RExpr) (attrCopy : String) (prior : PriorCall)
  /-- replace body, ensures: old-bindings, argument copies,
  `let result = <prior>; kani::assume(<attr>); result` -/
  | replaceEnsuresB (oldVars : List String) (oldExprs : List RExpr)
      (argCopies : List (String × String)) (attr : RExpr) (prior : PriorCall)

/-- One item of the macro's output token stream. -/
structure GenItem : Type where
  attrs : List SynMeta
  sig : SigM
  body : GBody

mutual

/-- Models `ArgumentIdentCollector`: every `PatIdent` ident in an argument
pattern, in visit order. -/
def collectPatIdents : Pat → List String
  | .identP n => [n]
  | .refP _ p => collectPatIdents p
  | .tupleP ps => collectPatsIdents ps
  | .sliceP ps => collectPatsIdents ps
  | .parenP p => collectPatIdents p
  | .structP _ fs _ => collectFieldPatsIdents fs
  | _ => []

def collectPatsIdents : Pats → List String
  | .nil => []
  | .cons p ps => collectPatIdents p ++ collectPatsIdents ps

def collectFieldPatsIdents : FieldPats → List String
  | .fnil => []
  | .fcons _ _ p fs => collectPatIdents p ++ collectFieldPatsIdents fs

end

/-- The `HashSet` of collected idents, modelled as the deduplicated list
in first-insertion order. -/
def dedupStr (l : List String) : List String :=
  l.foldl (fun acc s => if s ∈ acc then acc else acc ++ [s]) []

/-- All idents of the signature's argument patterns (`visit_signature`),
the receiver contributing `self`. -/
def collectArgIdents (inputs : List FnArgM) : List String :=
  dedupStr (inputs.foldr
    (fun a acc =>
      (match a with
        | FnArgM.receiver => ["self"]
        | FnArgM.typed p => collectPatIdents p) ++ acc) [])

def lookupRename (m : List (String × String)) (s : String) : Option String :=
  (m.find? (fun q => q.1 == s)).map (fun q => q.2)

mutual

/-- Models `Renamer`: replace every one-segment path expression whose ident is a
key of the map by the mapped ident (`Expr::Verbatim` is not visited; the
pattern half of `Renamer` has no expression positions in this model). -/
def renameExpr (m : List (String × String)) : RExpr → RExpr
  | .path segs =>
      match segs with
      | [s] =>
          match lookupRename m s with
          | some n => .path [n]
          | none => .path [s]
      | other => .path other
  | .call f args => .call (renameExpr m f) (renameExprs m args)
  | .lit s => .lit s
  | .binop op l r => .binop op (renameExpr m l) (renameExpr m r)
  | .refE mb e => .refE mb (renameExpr m e)
  | .tuple es => .tuple (renameExprs m es)
  | .array es => .array (renameExprs m es)
  | .structE sp fs => .structE sp (renameFields m fs)
  | .constE s => .constE s
  | .retSome e => .retSome (renameExpr m e)
  | .retNone => .retNone
  | .closure b => .closure (renameExpr m b)
  | .blockE ss => .blockE (renameExprs m ss)
  | .verbatimIdent s => .verbatimIdent s
  | .injectedRet b tk => .injectedRet b tk
  | .injectedRetUnit tk => .injectedRetUnit tk

def renameExprs (m : List (String × String)) : RExprs → RExprs
  | .nil => .nil
  | .cons e es => .cons (renameExpr m e) (renameExprs m es)

def renameFields (m : List (String × String)) : RFields → RFields
  | .fnil => .fnil
  | .fcons mem c e fs => .fcons mem c (renameExpr m e) (renameFields m fs)

end

/-- Translation of `rename_argument_occurrences`: collect the signature's
argument idents, map each to `<ident>_renamed`, apply the renaming to the
condition expression, and return the mapping. -/
def rename_argument_occurrences (sig : SigM) (attr : RExpr) :
    RExpr × List (String × String) :=
  let mapping := (collectArgIdents sig.inputs).map (fun i => (i, i ++ "_renamed"))
  (renameExpr mapping attr, mapping)

/-- Translation of `ContractConditionsType` (the ensures payload). -/
inductive CondTy : Type where
  | requiresT
  | ensuresT (oldVars : List String) (oldExprs : List RExpr)
      (argIdents : List (String × String))

/-- Translation of `ContractConditionsType::new_ensures`: run the old-value
lifter over the condition, derive the `old_i` identifiers in table order,
then rename argument occurrences. -/
def new_ensures (sig : SigM) (attr : RExpr) : PM (CondTy × RExpr) :=
  PM.bind' (oldLiftExpr [] attr) (fun r =>
    let oldVars := (List.range r.1.length).map oldIdentFor
    let renamed := rename_argument_occurrences sig r.2
    PM.pure' (CondTy.ensuresT oldVars r.1 renamed.2, renamed.1))

/-- Translation of `ContractConditionsHandler`. -/
structure CCHandler : Type where
  condition_type : CondTy
  attr : RExpr
  body : RExprs
  attr_copy : String

/-- Models `ContractConditionsHandler::new`. -/
def CCHandler.new (is_requires : Bool) (attr : RExpr) (sig : SigM)
    (body : RExprs) (attr_copy : String) : PM CCHandler :=
  if is_requires then PM.pure' ⟨CondTy.requiresT, attr, body, attr_copy⟩
  else
    PM.bind' (new_ensures sig attr)
      (fun r => PM.pure' ⟨r.1, r.2, body, attr_copy⟩)

/-- Models `ContractConditionsHandler::make_check_body`. -/
def make_check_body (h : CCHandler) : GBody :=
  match h.condition_type with
  | CondTy.requiresT => GBody.checkRequiresB h.attr h.body
  | CondTy.ensuresT oldVars oldExprs argIdents =>
      let forgets := argIdents.map (fun q => q.2)
      let exec := Toks.execPostconds h.attr h.attr_copy forgets
      GBody.checkEnsuresB oldVars oldExprs argIdents h.attr h.attr_copy
        (postcondInjects exec h.body)

/-- Models `ContractConditionsHandler::make_replace_body`. -/
def make_replace_body (h : CCHandler) (sig : SigM)
    (use_dummy_fn_call : Option String) : PM GBody :=
  PM.bind'
    (match use_dummy_fn_call with
      | some dummy =>
          PM.bind' (exprs_for_args sig.inputs) (fun args =>
            PM.pure' (PriorCall.dummyCall (is_probably_impl_fn sig) dummy args))
      | none => PM.pure' (PriorCall.bodyCall h.body))
    (fun prior =>
      PM.pure'
        (match h.condition_type with
          | CondTy.requiresT => GBody.replaceRequiresB h.attr h.attr_copy prior
          | CondTy.ensuresT oldVars oldExprs argIdents =>
              GBody.replaceEnsuresB oldVars oldExprs argIdents h.attr prior))

/-- Translation of `ContractFunctionState::prepare_header`: decide what to
emit; in the `Untouched` state emit the replace-dummy, the recursion
wrapper and the tagged frozen original, and return the generated names. -/
def prepare_header (state : ContractFunctionState) (f : ItemFnM)
    (aShortHash : Nat) :
    PM (Option (Option (String × Option String) × Option String) × List GenItem) :=
  match state with
  | ContractFunctionState.untouched =>
      let check_fn_name :=
        identifier_for_generated_function f.sig.name "check" aShortHash
      let replace_fn_name :=
        identifier_for_generated_function f.sig.name "replace" aShortHash
      let dummy_fn_name :=
        identifier_for_generated_function f.sig.name "replace_dummy" aShortHash
      let recursion_wrapper_name :=
        identifier_for_generated_function f.sig.name "recursion_wrapper" aShortHash
      PM.bind' (exprs_for_args f.sig.inputs) (fun args =>
        PM.pure'
          (some (some (replace_fn_name, some dummy_fn_name), some check_fn_name),
           [⟨[allowAttr], (sigNamed f.sig (dummy_fn_name)),
              GBody.unreachableB⟩,
            ⟨[allowAttr, isContractGeneratedAttr "recursion_wrapper"],
              (sigNamed f.sig (recursion_wrapper_name)),
              GBody.wrapperB (is_probably_impl_fn f.sig) check_fn_name
                replace_fn_name args args⟩,
            ⟨f.attrs ++
               [checkedWithAttr recursion_wrapper_name,
                replacedWithAttr replace_fn_name,
                memoryHavocDummyAttr dummy_fn_name],
              f.sig, GBody.origBody f.body⟩]))
  | ContractFunctionState.original => PM.pure' (none, [])
  | ContractFunctionState.replaceDummy => PM.pure' (none, [])
  | ContractFunctionState.check =>
      PM.pure' (some (none, some f.sig.name), [])
  | ContractFunctionState.replaceFn =>
      PM.pure' (some (some (f.sig.name, none), none), [])

/-- Translation of `requires_ensures_alt`: hash the unexpanded item, read
the contract state off the attributes, run `prepare_header`, and (unless
the header short-circuits) emit the replace and/or check functions with the
common header attributes and the generated-tag marker. -/
def requires_ensures_alt (hs : HashSteps) (itemStream : TokStream)
    (attr : RExpr) (attr_copy : String) (item : ItemFnM) (is_requires : Bool) :
    PM (List GenItem) :=
  let a_short_hash := short_hash_of_token_stream hs itemStream
  PM.bind' (functionState item.attrs) (fun function_state =>
    PM.bind' (prepare_header function_state item a_short_hash) (fun hdr =>
      match hdr.1 with
      | none => PM.pure' [⟨item.attrs, item.sig, GBody.origBody item.body⟩]
      | some (emit_replace, emit_check) =>
          PM.bind' (CCHandler.new is_requires attr item.sig item.body attr_copy)
            (fun handler =>
              PM.bind'
                (match emit_replace with
                  | some (replace_name, dummy) =>
                      PM.bind' (make_replace_body handler item.sig dummy)
                        (fun rb =>
                          PM.pure'
                            [(⟨(if emit_tag_attr function_state then [allowAttr] else []) ++
                                item.attrs ++
                                (if emit_tag_attr function_state then
                                  [isContractGeneratedAttr "replace"] else []),
                              (sigNamed item.sig (replace_name)), rb⟩ : GenItem)])
                  | none => PM.pure' [])
                (fun replaceItems =>
                  let checkItems : List GenItem :=
                    match emit_check with
                    | some check_name =>
                        [⟨(if emit_tag_attr function_state then [allowAttr] else []) ++
                           item.attrs ++
                           (if emit_tag_attr function_state then
                             [isContractGeneratedAttr "check"] else []),
                          (sigNamed item.sig (check_name)),
                          make_check_body handler⟩]
                    | none => []
                  PM.pure' (hdr.2 ++ replaceItems ++ checkItems)))))

/-- Operational reading of the `GBody.wrapperB` template under Rust
semantics: the `static mut REENTRY` flag is the `Bool` state, a callee that
unwinds is an `Except.error`.  If the flag is set, the replace variant is
called and the flag untouched; otherwise the flag is set, the check variant
called, and the flag cleared only after the check call returns normally
(an unwinding check call leaves the flag set, as the source comment
notes). -/
def wrapperStep {Val : Type} (callCheck callReplace : Except String Val)
    (reentry : Bool) : Except String Val × Bool :=
  if reentry then (callReplace, reentry)
  else
    match callCheck with
    | Except.ok v => (Except.ok v, false)
    | Except.error p => (Except.error p, true)

/-- C2: for every contracted function, `prepare_header` in the `Untouched`
state emits a recursion wrapper whose body is the re-entrance-flag template
with the check and replace calls applied to the same forwarded argument
list; the template's semantics: with the flag unset it sets the flag, calls
the check variant, clears the flag and returns the check result; with the
flag already set it calls the replace variant instead; and the flag is not
cleared when the inner check call unwinds. -/
theorem c2_recursion_wrapper {Val : Type} (f : ItemFnM) (hash : Nat)
    (s0 s1 : List String) (args : List RExpr)
    (hargs : exprs_for_args f.sig.inputs s0 = (Except.ok args, s1)) :
    (∃ names itemDummy itemOrig,
      prepare_header ContractFunctionState.untouched f hash s0 =
        (Except.ok (names,
          [itemDummy,
           ⟨[allowAttr, isContractGeneratedAttr "recursion_wrapper"],
             (sigNamed f.sig (identifier_for_generated_function f.sig.name "recursion_wrapper" hash)),
             GBody.wrapperB (is_probably_impl_fn f.sig)
               (identifier_for_generated_function f.sig.name "check" hash)
               (identifier_for_generated_function f.sig.name "replace" hash)
               args args⟩,
           itemOrig]), s1)) ∧
    (∀ callCheck callReplace : Except String Val,
      wrapperStep callCheck callReplace true = (callReplace, true) ∧
      (∀ v, callCheck = Except.ok v →
        wrapperStep callCheck callReplace false = (Except.ok v, false)) ∧
      (∀ p, callCheck = Except.error p →
        wrapperStep callCheck callReplace false = (Except.error p, true))) := by
  constructor
  · refine
      ⟨some (some (identifier_for_generated_function f.sig.name "replace" hash,
          some (identifier_for_generated_function f.sig.name "replace_dummy" hash)),
        some (identifier_for_generated_function f.sig.name "check" hash)),
       ⟨[allowAttr],
        (sigNamed f.sig (identifier_for_generated_function f.sig.name "replace_dummy" hash)),
        GBody.unreachableB⟩,
       ⟨f.attrs ++
          [checkedWithAttr
            (identifier_for_generated_function f.sig.name "recursion_wrapper" hash),
           replacedWithAttr
            (identifier_for_generated_function f.sig.name "replace" hash),
           memoryHavocDummyAttr
            (identifier_for_generated_function f.sig.name "replace_dummy" hash)],
        f.sig, GBody.origBody f.body⟩, ?_⟩
    simp [prepare_header, PM.bind', hargs, PM.pure']
  · intro callCheck callReplace
    refine ⟨rfl, fun v hv => ?_, fun p hp => ?_⟩
    · simp [wrapperStep, hv]
    · simp [wrapperStep, hp]

/-- C1: on a function in state `Untouched`, one expansion of a `requires`
or `ensures` attribute emits exactly four generated sibling functions —
the replace-dummy, the recursion wrapper, the replace variant and the
check variant, named by `identifier_for_generated_function` — plus the
frozen original tagged with the `checked_with` / `replaced_with` /
`memory_havoc_dummy` markers; on a function in state `Original` the
expansion returns the item unchanged and emits nothing else. -/
theorem c1_state_machine_expansion (hs : HashSteps) (itemStream : TokStream)
    (attr : RExpr) (attr_copy : String) (item : ItemFnM) (is_requires : Bool) :
    (∀ out errs,
      (functionState item.attrs).run =
        (Except.ok ContractFunctionState.untouched, []) →
      (requires_ensures_alt hs itemStream attr attr_copy item is_requires).run =
        (Except.ok out, errs) →
      ∃ args rb ckb,
        out =
          [⟨[allowAttr],
            (sigNamed item.sig ((identifier_for_generated_function item.sig.name "replace_dummy" (short_hash_of_token_stream hs itemStream)))),
            GBody.unreachableB⟩,
           ⟨[allowAttr, isContractGeneratedAttr "recursion_wrapper"],
            (sigNamed item.sig ((identifier_for_generated_function item.sig.name "recursion_wrapper" (short_hash_of_token_stream hs itemStream)))),
            GBody.wrapperB (is_probably_impl_fn item.sig)
              (identifier_for_generated_function item.sig.name "check"
                (short_hash_of_token_stream hs itemStream))
              (identifier_for_generated_function item.sig.name "replace"
                (short_hash_of_token_stream hs itemStream)) args args⟩,
           ⟨item.attrs ++
              [checkedWithAttr (identifier_for_generated_function item.sig.name
                 "recursion_wrapper" (short_hash_of_token_stream hs itemStream)),
               replacedWithAttr (identifier_for_generated_function item.sig.name
                 "replace" (short_hash_of_token_stream hs itemStream)),
               memoryHavocDummyAttr (identifier_for_generated_function item.sig.name
                 "replace_dummy" (short_hash_of_token_stream hs itemStream))],
            item.sig, GBody.origBody item.body⟩,
           ⟨[allowAttr] ++ item.attrs ++ [isContractGeneratedAttr "replace"],
            (sigNamed item.sig ((identifier_for_generated_function item.sig.name "replace" (short_hash_of_token_stream hs itemStream)))), rb⟩,
           ⟨[allowAttr] ++ item.attrs ++ [isContractGeneratedAttr "check"],
            (sigNamed item.sig ((identifier_for_generated_function item.sig.name "check" (short_hash_of_token_stream hs itemStream)))), ckb⟩]) ∧
    ((functionState item.attrs).run =
        (Except.ok ContractFunctionState.original, []) →
      (requires_ensures_alt hs itemStream attr attr_copy item is_requires).run =
        (Except.ok [⟨item.attrs, item.sig, GBody.origBody item.body⟩], [])) := by
  constructor
  · intro out errs hstate hrun
    have hst : functionState item.attrs [] =
        (Except.ok ContractFunctionState.untouched, []) := hstate
    rw [PM.run] at hrun
    rcases hargs : exprs_for_args item.sig.inputs [] with ⟨resA, s1⟩
    cases resA with
    | error e =>
        have hcomp : requires_ensures_alt hs itemStream attr attr_copy item
            is_requires [] = (Except.error e, s1) := by
          simp [requires_ensures_alt, PM.bind', hst, prepare_header, hargs,
            PM.pure']
        rw [hcomp] at hrun
        simp at hrun
    | ok args =>
        rcases hh : CCHandler.new is_requires attr item.sig item.body attr_copy s1
          with ⟨resH, s2⟩
        cases resH with
        | error e =>
            have hcomp : requires_ensures_alt hs itemStream attr attr_copy item
                is_requires [] = (Except.error e, s2) := by
              simp [requires_ensures_alt, PM.bind', hst, prepare_header, hargs,
                PM.pure', hh]
            rw [hcomp] at hrun
            simp at hrun
        | ok handler =>
            rcases hargs2 : exprs_for_args item.sig.inputs s2 with ⟨resA2, s3⟩
            cases resA2 with
            | error e =>
                have hcomp : requires_ensures_alt hs itemStream attr attr_copy item
                    is_requires [] = (Except.error e, s3) := by
                  simp [requires_ensures_alt, PM.bind', hst, prepare_header, hargs,
                    PM.pure', hh, make_replace_body, hargs2]
                rw [hcomp] at hrun
                simp at hrun
            | ok args2 =>
                cases hct : handler.condition_type with
                | requiresT =>
                    have hcomp : requires_ensures_alt hs itemStream attr attr_copy
                        item is_requires [] =
                        (Except.ok
                          ([⟨[allowAttr],
                             (sigNamed item.sig (identifier_for_generated_function item.sig.name "replace_dummy" (short_hash_of_token_stream hs itemStream))),
                             GBody.unreachableB⟩,
                            ⟨[allowAttr, isContractGeneratedAttr "recursion_wrapper"],
                             (sigNamed item.sig (identifier_for_generated_function item.sig.name "recursion_wrapper" (short_hash_of_token_stream hs itemStream))),
                             GBody.wrapperB (is_probably_impl_fn item.sig)
                               (identifier_for_generated_function item.sig.name
                                 "check" (short_hash_of_token_stream hs itemStream))
                               (identifier_for_generated_function item.sig.name
                                 "replace" (short_hash_of_token_stream hs itemStream))
                               args args⟩,
                            ⟨item.attrs ++
                               [checkedWithAttr (identifier_for_generated_function
                                  item.sig.name "recursion_wrapper"
                                  (short_hash_of_token_stream hs itemStream)),
                                replacedWithAttr (identifier_for_generated_function
                                  item.sig.name "replace"
                                  (short_hash_of_token_stream hs itemStream)),
                                memoryHavocDummyAttr (identifier_for_generated_function
                                  item.sig.name "replace_dummy"
                                  (short_hash_of_token_stream hs itemStream))],
                             item.sig, GBody.origBody item.body⟩,
                            ⟨[allowAttr] ++ item.attrs ++
                               [isContractGeneratedAttr "replace"],
                             (sigNamed item.sig (identifier_for_generated_function item.sig.name "replace" (short_hash_of_token_stream hs itemStream))),
                             GBody.replaceRequiresB handler.attr handler.attr_copy
                               (PriorCall.dummyCall (is_probably_impl_fn item.sig)
                                 (identifier_for_generated_function item.sig.name
                                   "replace_dummy"
                                   (short_hash_of_token_stream hs itemStream)) args2)⟩,
                            ⟨[allowAttr] ++ item.attrs ++
                               [isContractGeneratedAttr "check"],
                             (sigNamed item.sig (identifier_for_generated_function item.sig.name "check" (short_hash_of_token_stream hs itemStream))),
                             make_check_body handler⟩] : List GenItem), s3) := by
                      simp [requires_ensures_alt, PM.bind', hst, prepare_header,
                        hargs, PM.pure', hh, make_replace_body, hargs2, hct,
                        emit_tag_attr]
                    rw [hcomp] at hrun
                    simp only [Prod.mk.injEq, Except.ok.injEq] at hrun
                    exact ⟨args, _, _, hrun.1.symm⟩
                | ensuresT oldVars oldExprs argIdents =>
                    have hcomp : requires_ensures_alt hs itemStream attr attr_copy
                        item is_requires [] =
                        (Except.ok
                          ([⟨[allowAttr],
                             (sigNamed item.sig (identifier_for_generated_function item.sig.name "replace_dummy" (short_hash_of_token_stream hs itemStream))),
                             GBody.unreachableB⟩,
                            ⟨[allowAttr, isContractGeneratedAttr "recursion_wrapper"],
                             (sigNamed item.sig (identifier_for_generated_function item.sig.name "recursion_wrapper" (short_hash_of_token_stream hs itemStream))),
                             GBody.wrapperB (is_probably_impl_fn item.sig)
                               (identifier_for_generated_function item.sig.name
                                 "check" (short_hash_of_token_stream hs itemStream))
                               (identifier_for_generated_function item.sig.name
                                 "replace" (short_hash_of_token_stream hs itemStream))
                               args args⟩,
                            ⟨item.attrs ++
                               [checkedWithAttr (identifier_for_generated_function
                                  item.sig.name "recursion_wrapper"
                                  (short_hash_of_token_stream hs itemStream)),
                                replacedWithAttr (identifier_for_generated_function
                                  item.sig.name "replace"
                                  (short_hash_of_token_stream hs itemStream)),
                                memoryHavocDummyAttr (identifier_for_generated_function
                                  item.sig.name "replace_dummy"
                                  (short_hash_of_token_stream hs itemStream))],
                             item.sig, GBody.origBody item.body⟩,
                            ⟨[allowAttr] ++ item.attrs ++
                               [isContractGeneratedAttr "replace"],
                             (sigNamed item.sig (identifier_for_generated_function item.sig.name "replace" (short_hash_of_token_stream hs itemStream))),
                             GBody.replaceEnsuresB oldVars oldExprs argIdents
                               handler.attr
                               (PriorCall.dummyCall (is_probably_impl_fn item.sig)
                                 (identifier_for_generated_function item.sig.name
                                   "replace_dummy"
                                   (short_hash_of_token_stream hs itemStream)) args2)⟩,
                            ⟨[allowAttr] ++ item.attrs ++
                               [isContractGeneratedAttr "check"],
                             (sigNamed item.sig (identifier_for_generated_function item.sig.name "check" (short_hash_of_token_stream hs itemStream))),
                             make_check_body handler⟩] : List GenItem), s3) := by
                      simp [requires_ensures_alt, PM.bind', hst, prepare_header,
                        hargs, PM.pure', hh, make_replace_body, hargs2, hct,
                        emit_tag_attr]
                    rw [hcomp] at hrun
                    simp only [Prod.mk.injEq, Except.ok.injEq] at hrun
                    exact ⟨args, _, _, hrun.1.symm⟩
  · intro hstate
    have hst : functionState item.attrs [] =
        (Except.ok ContractFunctionState.original, []) := hstate
    show requires_ensures_alt hs itemStream attr attr_copy item is_requires [] = _
    simp [requires_ensures_alt, PM.bind', hst, prepare_header, PM.pure']

/-- A toy hasher instance for concrete runs. -/
def hsFix : HashSteps :=
  ⟨fun h s => h + s.length, fun h c => h + c.toNat, fun h _ => h + 1,
   fun h s => h + s.length, id, 0⟩

/-- A two-token item stream (hashes to `5` under `hsFix`). -/
def streamFix : TokStream := .cons (.ident "fn" 0) (.cons (.ident "foo" 0) .nil)

/-- Models `fn foo(x: ..)`'s signature. -/
def sigFix : SigM := ⟨"foo", [FnArgM.typed (Pat.identP "x")], false⟩

/-- An untouched item: no attributes, empty body. -/
def itemFix : ItemFnM := ⟨[], sigFix, RExprs.nil⟩

/-- Witness for C1: a concrete expansion of `requires` on an untouched
one-parameter function, plus the no-op on a frozen original. -/
theorem c1_state_machine_expansion_witness :
    (∃ args rb ckb,
      ([⟨[allowAttr], sigNamed sigFix "foo_replace_dummy_5", GBody.unreachableB⟩,
        ⟨[allowAttr, isContractGeneratedAttr "recursion_wrapper"],
          sigNamed sigFix "foo_recursion_wrapper_5",
          GBody.wrapperB false "foo_check_5" "foo_replace_5"
            [RExpr.verbatimIdent "x"] [RExpr.verbatimIdent "x"]⟩,
        ⟨[checkedWithAttr "foo_recursion_wrapper_5",
          replacedWithAttr "foo_replace_5",
          memoryHavocDummyAttr "foo_replace_dummy_5"],
          sigFix, GBody.origBody RExprs.nil⟩,
        ⟨[allowAttr, isContractGeneratedAttr "replace"],
          sigNamed sigFix "foo_replace_5",
          GBody.replaceRequiresB (RExpr.lit "true") "c"
            (PriorCall.dummyCall false "foo_replace_dummy_5"
              [RExpr.verbatimIdent "x"])⟩,
        ⟨[allowAttr, isContractGeneratedAttr "check"],
          sigNamed sigFix "foo_check_5",
          GBody.checkRequiresB (RExpr.lit "true") RExprs.nil⟩] : List GenItem) =
        [⟨[allowAttr],
          (sigNamed itemFix.sig (identifier_for_generated_function itemFix.sig.name
            "replace_dummy" (short_hash_of_token_stream hsFix streamFix))),
          GBody.unreachableB⟩,
         ⟨[allowAttr, isContractGeneratedAttr "recursion_wrapper"],
          (sigNamed itemFix.sig (identifier_for_generated_function itemFix.sig.name
            "recursion_wrapper" (short_hash_of_token_stream hsFix streamFix))),
          GBody.wrapperB (is_probably_impl_fn itemFix.sig)
            (identifier_for_generated_function itemFix.sig.name "check"
              (short_hash_of_token_stream hsFix streamFix))
            (identifier_for_generated_function itemFix.sig.name "replace"
              (short_hash_of_token_stream hsFix streamFix)) args args⟩,
         ⟨itemFix.attrs ++
            [checkedWithAttr (identifier_for_generated_function itemFix.sig.name
               "recursion_wrapper" (short_hash_of_token_stream hsFix streamFix)),
             replacedWithAttr (identifier_for_generated_function itemFix.sig.name
               "replace" (short_hash_of_token_stream hsFix streamFix)),
             memoryHavocDummyAttr (identifier_for_generated_function itemFix.sig.name
               "replace_dummy" (short_hash_of_token_stream hsFix streamFix))],
          itemFix.sig, GBody.origBody itemFix.body⟩,
         ⟨[allowAttr] ++ itemFix.attrs ++ [isContractGeneratedAttr "replace"],
          (sigNamed itemFix.sig (identifier_for_generated_function itemFix.sig.name
            "replace" (short_hash_of_token_stream hsFix streamFix))), rb⟩,
         ⟨[allowAttr] ++ itemFix.attrs ++ [isContractGeneratedAttr "check"],
          (sigNamed itemFix.sig (identifier_for_generated_function itemFix.sig.name
            "check" (short_hash_of_token_stream hsFix streamFix))), ckb⟩]) ∧
    (requires_ensures_alt hsFix streamFix (RExpr.lit "true") "c"
        ⟨[checkedWithAttr "w"], sigFix, RExprs.nil⟩ true).run =
      (Except.ok [⟨(⟨[checkedWithAttr "w"], sigFix, RExprs.nil⟩ : ItemFnM).attrs,
        (⟨[checkedWithAttr "w"], sigFix, RExprs.nil⟩ : ItemFnM).sig,
        GBody.origBody (⟨[checkedWithAttr "w"], sigFix, RExprs.nil⟩ : ItemFnM).body⟩],
       []) :=
  ⟨(c1_state_machine_expansion hsFix streamFix (RExpr.lit "true") "c" itemFix
      true).1 _ [] rfl rfl,
   (c1_state_machine_expansion hsFix streamFix (RExpr.lit "true") "c"
      ⟨[checkedWithAttr "w"], sigFix, RExprs.nil⟩ true).2 rfl⟩

/-- Witness for C2 at a one-parameter function. -/
theorem c2_recursion_wrapper_witness :
    (∃ names itemDummy itemOrig,
      prepare_header ContractFunctionState.untouched
          ⟨[], ⟨"foo", [FnArgM.typed (Pat.identP "x")], false⟩, RExprs.nil⟩ 5 [] =
        (Except.ok (names,
          [itemDummy,
           ⟨[allowAttr, isContractGeneratedAttr "recursion_wrapper"],
             (⟨identifier_for_generated_function "foo" "recursion_wrapper" 5,
               [FnArgM.typed (Pat.identP "x")], false⟩ : SigM),
             GBody.wrapperB
               (is_probably_impl_fn ⟨"foo", [FnArgM.typed (Pat.identP "x")], false⟩)
               (identifier_for_generated_function "foo" "check" 5)
               (identifier_for_generated_function "foo" "replace" 5)
               [RExpr.verbatimIdent "x"] [RExpr.verbatimIdent "x"]⟩,
           itemOrig]), [])) ∧
    (∀ callCheck callReplace : Except String Nat,
      wrapperStep callCheck callReplace true = (callReplace, true) ∧
      (∀ v, callCheck = Except.ok v →
        wrapperStep callCheck callReplace false = (Except.ok v, false)) ∧
      (∀ p, callCheck = Except.error p →
        wrapperStep callCheck callReplace false = (Except.error p, true))) :=
  c2_recursion_wrapper
    ⟨[], ⟨"foo", [FnArgM.typed (Pat.identP "x")], false⟩, RExprs.nil⟩ 5 [] []
    [RExpr.verbatimIdent "x"] rfl

/-!  ## The generic contract record (`GFnContract`,
kani-compiler/src/kani_middle/contracts.rs) -/

/-- Translation of `GFnContract<C, A>`: the three ordered clause sequences
of the record (the Rust struct has exactly the fields `requires`,
`ensures`, `assigns`). -/
structure GFnContract (C A : Type) : Type where
  requires : List C
  ensures : List C
  assigns : List A

/-- Models `GFnContract::new`. -/
def GFnContract.new (requires ensures : List C) (assigns : List A) :
    GFnContract C A :=
  ⟨requires, ensures, assigns⟩

/-- Models `GFnContract::map_c`. -/
def GFnContract.map_c (f : C → C0) (c : GFnContract C A) : GFnContract C0 A :=
  ⟨c.requires.map f, c.ensures.map f, c.assigns⟩

/-- Models `GFnContract::enforceable`:
`!self.requires().is_empty() || !self.ensures().is_empty()`. -/
def GFnContract.enforceable (c : GFnContract C A) : Bool :=
  !c.requires.isEmpty || !c.ensures.isEmpty

/-- C9 as stated is false on the code: the contract record cannot carry a
fourth independent `frees` sequence — no constructor/accessor pair can
satisfy the four-sequence reading, refuted at the concrete frees values
`[0]` and `[1]`.  (The source stores frees places outside the record:
`frees_contract` returns a bare `Vec<Place>`.) -/
theorem c9_no_frees_field_counterexample :
    ¬ ∃ (freesF : GFnContract Nat Nat → List Nat)
        (mk4 : List Nat → List Nat → List Nat → List Nat → GFnContract Nat Nat),
      ∀ r e a fr,
        (mk4 r e a fr).requires = r ∧ (mk4 r e a fr).ensures = e ∧
        (mk4 r e a fr).assigns = a ∧ freesF (mk4 r e a fr) = fr := by
  rintro ⟨freesF, mk4, h⟩
  have h0 := h [] [] [] [0]
  have h1 := h [] [] [] [1]
  have e01 : mk4 [] [] [] [0] = mk4 [] [] [] [1] := by
    cases hc0 : mk4 [] [] [] [0] with
    | mk rq0 en0 as0 =>
        cases hc1 : mk4 [] [] [] [1] with
        | mk rq1 en1 as1 =>
            rw [hc0] at h0
            rw [hc1] at h1
            simp only [GFnContract.mk.injEq]
            refine ⟨?_, ?_, ?_⟩
            · rw [show rq0 = [] from h0.1, show rq1 = [] from h1.1]
            · rw [show en0 = [] from h0.2.1, show en1 = [] from h1.2.1]
            · rw [show as0 = [] from h0.2.2.1, show as1 = [] from h1.2.2.1]
  have hfr : ([0] : List Nat) = [1] := by
    rw [← h0.2.2.2, ← h1.2.2.2, e01]
  simp at hfr

/-- C9 (amended): the record holds the three ordered sequences `requires`,
`ensures`, `assigns` — frees places are produced separately and not stored
in the record — and `enforceable` returns true exactly when `requires` or
`ensures` is non-empty, so a contract with all sequences empty is treated
as absent rather than trivially satisfied. -/
theorem c9_contract_record_enforceable (C A : Type) :
    (∀ (r e : List C) (a : List A),
      (GFnContract.new r e a).requires = r ∧
      (GFnContract.new r e a).ensures = e ∧
      (GFnContract.new r e a).assigns = a) ∧
    (∀ c : GFnContract C A,
      c.enforceable = true ↔ (c.requires ≠ [] ∨ c.ensures ≠ [])) ∧
    (GFnContract.new ([] : List C) [] ([] : List A)).enforceable = false := by
  refine ⟨fun r e a => ⟨rfl, rfl, rfl⟩, fun c => ?_, rfl⟩
  cases c with
  | mk rq en asg =>
      simp [GFnContract.enforceable, List.isEmpty_iff]

/-!  ## Contract resolver and recursion tracker
(`GotocCtx::handle_check_contract`) -/

/-- Translation of `kani_metadata::AssignsContract`. -/
structure AssignsContract : Type where
  recursion_tracker : String
  contracted_function_name : String

/-- A reachable `MonoItem`: a monomorphized function instance carries its
definition id and its instantiation (generic arguments); other mono item
kinds are irrelevant to the filter. -/
inductive MonoItemM : Type where
  | fnItem (defId : Nat) (inst : Nat)
  | otherItem (tag : Nat)

/-- Modelled from the spec: the attribute accessors and compiler-context
lookups `handle_check_contract` calls whose definitions are not part of
this repository snapshot (`KaniAttributes::inner_check` and
`checked_with_id`, `symbol_name_stable`, `codegen_span(..).filename()`,
`tcx.item_name`, `modifies_contract`) — per spec §4.6/§6 these resolve the
Phase-A identifiers to concrete function identities, mangled symbol names
and source locations.  Each `Option (Option _)` mirrors the double
`unwrap` in the source (attribute present, then target resolved). -/
structure C6Ctx : Type where
  inner_check : Nat → Option (Option Nat)
  checked_with_id : Nat → Option (Option Nat)
  symbolNameStable : Nat × Nat → String
  filenameOf : Nat → Option String
  itemNameOf : Nat → String
  modifiesOf : Nat → Option (List Nat)

/-- The reachable instances whose definition id is the wrapped check
function (`MonoItem::Fn(instance) if wrapped_fn == instance.def_id()`). -/
def liveInstances (items : List MonoItemM) (wrappedFn : Nat) : List (Nat × Nat) :=
  items.filterMap (fun i =>
    match i with
    | MonoItemM.fnItem d inst => if d = wrappedFn then some (d, inst) else none
    | MonoItemM.otherItem _ => none)

/-- Translation of `GotocCtx::handle_check_contract`: resolve the
`inner_check` target, find its unique live instance (zero instances panics
on `unwrap`, a second instance fails the assert), read the `modifies`
clauses (defaulting to none) for attachment, and build the
`AssignsContract` whose `recursion_tracker` is
`<file of checked_with target>:<its item name>::REENTRY`. -/
def handle_check_contract (ctx : C6Ctx) (function_under_contract : Nat)
    (items : List MonoItemM) : PM AssignsContract :=
  PM.bind' (unwrapO "no inner_check attribute"
      (ctx.inner_check function_under_contract)) (fun w1 =>
  PM.bind' (unwrapO "inner_check target did not resolve" w1) (fun wrapped_fn =>
  PM.bind' (unwrapO "no instance of checked function"
      (liveInstances items wrapped_fn).head?) (fun instance_of_check =>
  PM.bind'
    (if (liveInstances items wrapped_fn).length ≤ 1 then PM.pure' ()
     else PM.fatal "Only one instance of a checked function may be in scope")
    (fun _ =>
  let _assigns_contract := (ctx.modifiesOf wrapped_fn).getD []
  let wrapper_name := ctx.symbolNameStable instance_of_check
  PM.bind' (unwrapO "no checked_with attribute"
      (ctx.checked_with_id function_under_contract)) (fun c1 =>
  PM.bind' (unwrapO "checked_with target did not resolve" c1)
    (fun recursion_wrapper_id =>
  PM.bind' (unwrapO "recursion location wrapper should have a file name"
      (ctx.filenameOf recursion_wrapper_id)) (fun filename =>
  PM.pure'
    ⟨filename ++ ":" ++ ctx.itemNameOf recursion_wrapper_id ++ "::REENTRY",
     wrapper_name⟩)))))))

/-- C6: with the Phase-A identifiers resolving, the resolver succeeds
exactly on one live instantiation of the checked function — an empty or a
multiple instantiation list is a fatal error — and the returned
`AssignsContract`'s `recursion_tracker` is exactly
`<file of the recursion wrapper>:<its name>::REENTRY`. -/
theorem c6_unique_instance_and_tracker (ctx : C6Ctx) (fuc : Nat)
    (items : List MonoItemM) (wrapped rwid : Nat) (fname : String)
    (hw : ctx.inner_check fuc = some (some wrapped))
    (hc : ctx.checked_with_id fuc = some (some rwid))
    (hf : ctx.filenameOf rwid = some fname) :
    (∀ inst, liveInstances items wrapped = [inst] →
      (handle_check_contract ctx fuc items).run =
        (Except.ok ⟨fname ++ ":" ++ ctx.itemNameOf rwid ++ "::REENTRY",
          ctx.symbolNameStable inst⟩, [])) ∧
    (liveInstances items wrapped = [] →
      (handle_check_contract ctx fuc items).run =
        (Except.error "no instance of checked function", [])) ∧
    (2 ≤ (liveInstances items wrapped).length →
      (handle_check_contract ctx fuc items).run =
        (Except.error "Only one instance of a checked function may be in scope",
         [])) := by
  refine ⟨fun inst hl => ?_, fun hl => ?_, fun hlen => ?_⟩
  · simp [PM.run, handle_check_contract, PM.bind', hw, hc, hf, unwrapO, hl,
      PM.pure']
  · simp [PM.run, handle_check_contract, PM.bind', hw, unwrapO, hl, PM.pure',
      PM.fatal]
  · rcases hli : liveInstances items wrapped with _ | ⟨i, rest⟩
    · rw [hli] at hlen
      simp at hlen
    · rw [hli] at hlen
      have hgt : ¬ (i :: rest).length ≤ 1 := by
        simp only [List.length_cons] at hlen ⊢
        omega
      have hrest : rest ≠ [] := by
        intro hr
        rw [hr] at hlen
        simp at hlen
      simp [PM.run, handle_check_contract, PM.bind', hw, unwrapO, hli, hgt,
        hrest, PM.pure', PM.fatal]

/-- A concrete resolver context for the C6 witness. -/
def ctxFix : C6Ctx :=
  ⟨fun _ => some (some 7), fun _ => some (some 9), fun _ => "mangled_check",
   fun _ => some "src/lib.rs", fun _ => "foo_recursion_wrapper_5", fun _ => none⟩

/-- Witness for C6: one, zero and two live instances of def id 7. -/
theorem c6_unique_instance_and_tracker_witness :
    (handle_check_contract ctxFix 1 [MonoItemM.fnItem 7 0]).run =
      (Except.ok ⟨"src/lib.rs" ++ ":" ++ ctxFix.itemNameOf 9 ++ "::REENTRY",
        ctxFix.symbolNameStable (7, 0)⟩, []) ∧
    (handle_check_contract ctxFix 1 [MonoItemM.otherItem 3]).run =
      (Except.error "no instance of checked function", []) ∧
    (handle_check_contract ctxFix 1
        [MonoItemM.fnItem 7 0, MonoItemM.fnItem 7 1]).run =
      (Except.error "Only one instance of a checked function may be in scope",
       []) :=
  ⟨(c6_unique_instance_and_tracker ctxFix 1 [MonoItemM.fnItem 7 0] 7 9
      "src/lib.rs" rfl rfl rfl).1 (7, 0) rfl,
   (c6_unique_instance_and_tracker ctxFix 1 [MonoItemM.otherItem 3] 7 9
      "src/lib.rs" rfl rfl rfl).2.1 rfl,
   (c6_unique_instance_and_tracker ctxFix 1
      [MonoItemM.fnItem 7 0, MonoItemM.fnItem 7 1] 7 9
      "src/lib.rs" rfl rfl rfl).2.2 (by decide)⟩

/-!  ## Place parser for assigns / frees clauses
(`parse_place`, `UntilDotDot`, `AssignsRange` in
kani-compiler/src/kani_middle/attributes.rs) -/

mutual

/-- A `rustc_ast` token tree of an assigns/frees clause. -/
inductive CTok : Type where
  | identTok (s : String)
  /-- Models `BinOp(Star)` -/
  | starTok
  | dotTok
  | dotDotTok
  | commaTok
  /-- a literal token (e.g. `2`) -/
  | litTok (s : String)
  /-- Models `Delimited(.., Parenthesis, inner)` -/
  | parenGroup (inner : CToks)
  /-- Models `Delimited(.., Bracket, inner)` -/
  | bracketGroup (inner : CToks)
  /-- any other token kind -/
  | otherTok (s : String)

inductive CToks : Type where
  | nil
  | cons (t : CTok) (ts : CToks)

end

/-- The structural type of a place, as far as the parser queries it
(`Place::ty` plus the ADT field table): a (possibly multi-variant) ADT with
its first variant's named fields, a reference, or anything else. -/
inductive CTy : Type where
  | adtTy (isStruct : Bool) (fields : List (String × CTy))
  | refTy (pointee : CTy)
  | primTy

/-- A MIR projection element (the two kinds the parser produces). -/
inductive ProjElem : Type where
  | derefP
  | fieldP (idx : Nat)
deriving DecidableEq

/-- A MIR `Place`: a base local and a projection chain. -/
structure CPlace : Type where
  localIdx : Nat
  projection : List ProjElem
deriving DecidableEq

/-- Translation of `AssignsRange`. -/
structure AssignsRange : Type where
  base : CPlace
  slice : Option (Option CPlace × Option CPlace)
deriving DecidableEq

/-- Models `AssignsRange::expect_base_only`: `assert!(self.slice.is_none())`. -/
def AssignsRange.expect_base_only (r : AssignsRange) : PM CPlace :=
  match r.slice with
  | none => PM.pure' r.base
  | some _ => PM.fatal "assertion failed: self.slice.is_none()"

/-- Models `AssignsRange::project_deeper`. -/
def AssignsRange.project_deeper (r : AssignsRange) (projs : List ProjElem) :
    AssignsRange :=
  { r with base := { r.base with projection := r.base.projection ++ projs } }

/-- Models `Option::map(AssignsRange::expect_base_only)` over a bound. -/
def optBaseOnly : Option AssignsRange → PM (Option CPlace)
  | none => PM.pure' none
  | some r => PM.bind' r.expect_base_only (fun p => PM.pure' (some p))

/-- The name/type environment the parser consults: the function's
parameter names zipped with their MIR locals (`body_param_names` against
`args_iter`) and each local's type (`local_decls`). -/
structure PCtx : Type where
  params : List (String × Nat)
  localTy : Nat → CTy

/-- One step of `Place::ty` along a projection element. -/
def projTy : CTy → ProjElem → PM CTy
  | CTy.refTy t, ProjElem.derefP => PM.pure' t
  | _, ProjElem.derefP => PM.fatal "deref projection on a non-reference type"
  | CTy.adtTy _ fields, ProjElem.fieldP i =>
      (match fields.get? i with
        | some f => PM.pure' f.2
        | none => PM.fatal "field index out of range")
  | _, ProjElem.fieldP _ => PM.fatal "field projection on a non-ADT type"

def placeTyAux : CTy → List ProjElem → PM CTy
  | t, [] => PM.pure' t
  | t, pr :: rest => PM.bind' (projTy t pr) (fun t2 => placeTyAux t2 rest)

/-- Models `Place::ty(local_decls, tcx)` of the place built so far. -/
def placeTy (ctx : PCtx) (p : CPlace) : PM CTy :=
  placeTyAux (ctx.localTy p.localIdx) p.projection

/-- The parser's token cursor: either a plain `trees()` cursor or an
`UntilDotDot` adapter over one (used for the `from` bound). -/
inductive ItSt : Type where
  | raw (rem : CToks)
  | untilDD (rem : CToks) (seen : Bool)

/-- Models `Iterator::next`, returning the updated cursor even when yielding
nothing: the adapter consumes a `..` while yielding `None`.  The source's
`self.seen_dot_dot;` at that point is a no-op expression (not an
assignment), so the flag is never set — translated faithfully. -/
def ItSt.next : ItSt → Option CTok × ItSt
  | .raw CToks.nil => (none, .raw CToks.nil)
  | .raw (CToks.cons t ts) => (some t, .raw ts)
  | .untilDD rem true => (none, .untilDD rem true)
  | .untilDD CToks.nil false => (none, .untilDD CToks.nil false)
  | .untilDD (CToks.cons CTok.dotDotTok ts) false => (none, .untilDD ts false)
  | .untilDD (CToks.cons t ts) false => (some t, .untilDD ts false)

/-- The underlying `trees()` cursor position (where `it` resumes after the
`from` bound was parsed through the adapter). -/
def ItSt.underlying : ItSt → CToks
  | .raw rem => rem
  | .untilDD rem _ => rem

/-- Tokens after the first `..` (all of them consumed when there is
none). -/
def CToks.dropThroughDotDot : CToks → CToks
  | CToks.nil => CToks.nil
  | CToks.cons CTok.dotDotTok ts => ts
  | CToks.cons _ ts => CToks.dropThroughDotDot ts

/-- The `skip` closure: `skip_while(is_comma).count()` pulls the iterator
until it yields `None` (for the adapter that is at the first `..` or the
end). -/
def ItSt.drain : ItSt → ItSt
  | .raw _ => .raw CToks.nil
  | .untilDD rem true => .untilDD rem true
  | .untilDD rem false => .untilDD (CToks.dropThroughDotDot rem) false

mutual

/-- Translation of `parse_place`: parse one place entry from the cursor
(fuel-indexed; every run below supplies enough fuel, and running out is a
fatal outcome distinct from every parser diagnostic). -/
def parse_place (ctx : PCtx) (deny : Option String) :
    Nat → ItSt → PM (Option AssignsRange × ItSt)
  | 0, _ => PM.fatal "fuel exhausted"
  | Nat.succ fuel, t =>
      match t.next with
      | (none, t1) => PM.pure' (none, t1)
      | (some tree, t1) =>
          match tree with
          | CTok.parenGroup inner =>
              PM.bind' (parse_place ctx deny fuel (ItSt.raw inner)) (fun r =>
                match r.1 with
                | none =>
                    PM.bind' (PM.emitErr "Expected an lvalue in the parentheses")
                      (fun _ => PM.pure' (none, t1))
                | some res =>
                    PM.bind'
                      (match r.2.next with
                        | (some _, _) =>
                            PM.emitErr
                              "Expected only one lvalue in parenthesized expression"
                        | (none, _) => PM.pure' ())
                      (fun _ => parse_place_loop ctx deny fuel res t1))
          | CTok.identTok id =>
              (match ctx.params.find? (fun q => q.1 == id) with
                | some q =>
                    parse_place_loop ctx deny fuel ⟨⟨q.2, []⟩, none⟩ t1
                | none => PM.fatal "unwrap failed: unknown parameter name")
          | CTok.starTok =>
              PM.bind' (parse_place ctx deny fuel t1) (fun r =>
                match r.1 with
                | some p =>
                    parse_place_loop ctx deny fuel
                      (p.project_deeper [ProjElem.derefP]) r.2
                | none =>
                    PM.bind'
                      (PM.emitErr
                        "Expected this dereference to be followed by an lvalue")
                      (fun _ => PM.pure' (none, r.2.drain)))
          | _ =>
              PM.fatal
                "Parse error in assigns clause, expected `*`, identifier or parentheses"

/-- The projection loop of `parse_place` (`while let Some(tree) = t.next()`
over the already-parsed `base`). -/
def parse_place_loop (ctx : PCtx) (deny : Option String) :
    Nat → AssignsRange → ItSt → PM (Option AssignsRange × ItSt)
  | 0, _, _ => PM.fatal "fuel exhausted"
  | Nat.succ fuel, base, t =>
      match t.next with
      | (none, t1) => PM.pure' (some base, t1)
      | (some tree, t1) =>
          match tree with
          | CTok.commaTok => PM.pure' (some base, t1)
          | CTok.dotTok =>
              (match t1.next with
                | (some (CTok.identTok field), t2) =>
                    PM.bind' base.expect_base_only (fun p =>
                      PM.bind' (placeTy ctx p) (fun pty =>
                        match pty with
                        | CTy.adtTy isStruct fields =>
                            PM.bind'
                              (if isStruct then PM.pure' ()
                               else PM.fatal
                                 "assertion failed: adt_def.is_struct()")
                              (fun _ =>
                                match fields.findIdx? (fun f => f.1 == field) with
                                | some fidx =>
                                    parse_place_loop ctx deny fuel
                                      (base.project_deeper [ProjElem.fieldP fidx]) t2
                                | none =>
                                    PM.fatal
                                      ("Could not find field " ++ field ++
                                        " in the place type"))
                        | _ => PM.fatal "panicked: place type is not an ADT"))
                | (_, _) => PM.fatal "Incomplete field expression")
          | CTok.bracketGroup inner =>
              PM.bind' (parse_place ctx deny fuel (ItSt.untilDD inner false))
                (fun fr =>
                  PM.bind' (optBaseOnly fr.1) (fun fromP =>
                    PM.bind' (parse_place ctx deny fuel (ItSt.raw fr.2.underlying))
                      (fun tr =>
                        PM.bind' (optBaseOnly tr.1) (fun toP =>
                          match t1.next with
                          | (nx, t2) =>
                              PM.bind'
                                (match nx with
                                  | none => PM.pure' ()
                                  | some CTok.commaTok => PM.pure' ()
                                  | some _ =>
                                      PM.emitErr
                                        "Slice pattern is only supported as last projection")
                                (fun _ =>
                                  PM.bind'
                                    (match deny with
                                      | some elem =>
                                          PM.emitErr
                                            ("Subslice pattern is not allowed in " ++
                                              elem ++ ".")
                                      | none => PM.pure' ())
                                    (fun _ =>
                                      PM.bind' base.expect_base_only (fun b =>
                                        PM.pure'
                                          (some ⟨b, some (fromP, toP)⟩, t2))))))))
          | CTok.parenGroup _ =>
              PM.fatal
                "Unexpected token, expected field projection, slice pattern or comma"
          | _ => PM.fatal "Unexpected token"

end

/-- One step of `parse_assign_values` / `parse_frees_values`' `from_fn`
loop: parse entries while the `peek` is non-empty, `filter_map` dropping
entries that produced nothing. -/
def parse_values (ctx : PCtx) (deny : Option String) :
    Nat → CToks → PM (List AssignsRange)
  | 0, _ => PM.fatal "fuel exhausted"
  | Nat.succ fuel, toks =>
      match toks with
      | CToks.nil => PM.pure' []
      | CToks.cons _ _ =>
          PM.bind' (parse_place ctx deny fuel (ItSt.raw toks)) (fun r =>
            PM.bind' (parse_values ctx deny fuel r.2.underlying) (fun rest =>
              PM.pure'
                (match r.1 with
                  | some v => v :: rest
                  | none => rest)))

/-- Translation of `parse_assign_values`. -/
def parse_assign_values (ctx : PCtx) (fuel : Nat) (toks : CToks) :
    PM (List AssignsRange) :=
  parse_values ctx none fuel toks

/-- Translation of `parse_frees_values`: the same parser with the
`deny_wildcard_subslice` parameter set to `` `frees` clause ``, each
produced range reduced to its base by `expect_base_only` as it is pulled
from the iterator pipeline. -/
def parse_frees_values (ctx : PCtx) : Nat → CToks → PM (List CPlace)
  | 0, _ => PM.fatal "fuel exhausted"
  | Nat.succ fuel, toks =>
      match toks with
      | CToks.nil => PM.pure' []
      | CToks.cons _ _ =>
          PM.bind'
            (parse_place ctx (some "`frees` clause") fuel (ItSt.raw toks))
            (fun r =>
              match r.1 with
              | some v =>
                  PM.bind' v.expect_base_only (fun p =>
                    PM.bind' (parse_frees_values ctx fuel r.2.underlying)
                      (fun rest => PM.pure' (p :: rest)))
              | none => parse_frees_values ctx fuel r.2.underlying)

/-- A context with parameters `a : S` (a struct with one field `b`),
`x`, `y` at locals 1, 2, 3. -/
def ctxFixP : PCtx :=
  ⟨[("a", 1), ("x", 2), ("y", 3)],
   fun n => if n = 1 then CTy.adtTy true [("b", CTy.primTy)] else CTy.primTy⟩

/-- The tokens of `a.b[..].c`. -/
def toksNonFinal : CToks :=
  CToks.cons (CTok.identTok "a") (CToks.cons CTok.dotTok
    (CToks.cons (CTok.identTok "b")
      (CToks.cons (CTok.bracketGroup (CToks.cons CTok.dotDotTok CToks.nil))
        (CToks.cons CTok.dotTok (CToks.cons (CTok.identTok "c") CToks.nil)))))

/-- The tokens of `a.b[x..]`. -/
def toksFromOnly : CToks :=
  CToks.cons (CTok.identTok "a") (CToks.cons CTok.dotTok
    (CToks.cons (CTok.identTok "b")
      (CToks.cons (CTok.bracketGroup (CToks.cons (CTok.identTok "x")
        (CToks.cons CTok.dotDotTok CToks.nil))) CToks.nil)))

/-- The tokens of `a[..y]`. -/
def toksToOnly : CToks :=
  CToks.cons (CTok.identTok "a")
    (CToks.cons (CTok.bracketGroup (CToks.cons CTok.dotDotTok
      (CToks.cons (CTok.identTok "y") CToks.nil))) CToks.nil)

/-- The tokens of `a[..]`. -/
def toksBoth : CToks :=
  CToks.cons (CTok.identTok "a")
    (CToks.cons (CTok.bracketGroup (CToks.cons CTok.dotDotTok CToks.nil))
      CToks.nil)

/-- The tokens of `a[..5]`. -/
def toksLitTo : CToks :=
  CToks.cons (CTok.identTok "a")
    (CToks.cons (CTok.bracketGroup (CToks.cons CTok.dotDotTok
      (CToks.cons (CTok.litTok "5") CToks.nil))) CToks.nil)

/-- The tokens of `a.b[2..]`. -/
def toksLitFrom : CToks :=
  CToks.cons (CTok.identTok "a") (CToks.cons CTok.dotTok
    (CToks.cons (CTok.identTok "b")
      (CToks.cons (CTok.bracketGroup (CToks.cons (CTok.litTok "2")
        (CToks.cons CTok.dotDotTok CToks.nil))) CToks.nil)))

/-- The tokens of `a[x..y]`. -/
def toksIdentBoth : CToks :=
  CToks.cons (CTok.identTok "a")
    (CToks.cons (CTok.bracketGroup (CToks.cons (CTok.identTok "x")
      (CToks.cons CTok.dotDotTok (CToks.cons (CTok.identTok "y") CToks.nil))))
      CToks.nil)

/-- C3 as stated is false on the code: a slice bound written as a numeric
literal does not parse.  Bounds are themselves parsed as places, and a
literal token falls into the fatal branch "Parse error in assigns clause,
expected `*`, identifier or parentheses", so `a[..5]` and `a.b[2..]` abort
instead of yielding an `AssignsRange` with the stated bound. -/
theorem c3_literal_bounds_counterexample :
    (parse_place ctxFixP none 99 (ItSt.raw toksLitTo)).run =
      (Except.error
        "Parse error in assigns clause, expected `*`, identifier or parentheses",
       []) ∧
    (parse_place ctxFixP none 99 (ItSt.raw toksLitFrom)).run =
      (Except.error
        "Parse error in assigns clause, expected `*`, identifier or parentheses",
       []) ∧
    ¬ ∃ (r : AssignsRange) (t2 : ItSt) (errs : List String),
      (parse_place ctxFixP none 99 (ItSt.raw toksLitTo)).run =
        (Except.ok (some r, t2), errs) := by
  refine ⟨rfl, rfl, ?_⟩
  rintro ⟨r, t2, errs, hok⟩
  rw [show (parse_place ctxFixP none 99 (ItSt.raw toksLitTo)).run =
      (Except.error
        "Parse error in assigns clause, expected `*`, identifier or parentheses",
       []) from rfl] at hok
  simp at hok

/-- C3 (amended): the parser rejects any projection after a slice suffix
(`a.b[..].c` emits "Slice pattern is only supported as last projection");
slice bounds are place expressions, each independently optional — with
identifier bounds `a.b[x..]`, `a[..y]` and `a[..]` parse to an
`AssignsRange` based at `a` (plus the `.b` field projection for the first)
with the stated bound present or absent — while the numeric-literal bounds
of `a.b[2..]` and `a[..5]` make parsing abort with the fatal
"expected `*`, identifier or parentheses" diagnostic. -/
theorem c3_place_parser_slice_forms :
    (parse_place ctxFixP none 99 (ItSt.raw toksNonFinal)).run =
      (Except.ok (some ⟨⟨1, [ProjElem.fieldP 0]⟩, some (none, none)⟩,
        ItSt.raw (CToks.cons (CTok.identTok "c") CToks.nil)),
       ["Slice pattern is only supported as last projection"]) ∧
    (parse_place ctxFixP none 99 (ItSt.raw toksFromOnly)).run =
      (Except.ok (some ⟨⟨1, [ProjElem.fieldP 0]⟩, some (some ⟨2, []⟩, none)⟩,
        ItSt.raw CToks.nil), []) ∧
    (parse_place ctxFixP none 99 (ItSt.raw toksToOnly)).run =
      (Except.ok (some ⟨⟨1, []⟩, some (none, some ⟨3, []⟩)⟩,
        ItSt.raw CToks.nil), []) ∧
    (parse_place ctxFixP none 99 (ItSt.raw toksBoth)).run =
      (Except.ok (some ⟨⟨1, []⟩, some (none, none)⟩, ItSt.raw CToks.nil), []) ∧
    (parse_place ctxFixP none 99 (ItSt.raw toksLitTo)).run =
      (Except.error
        "Parse error in assigns clause, expected `*`, identifier or parentheses",
       []) ∧
    (parse_place ctxFixP none 99 (ItSt.raw toksLitFrom)).run =
      (Except.error
        "Parse error in assigns clause, expected `*`, identifier or parentheses",
       []) :=
  ⟨rfl, rfl, rfl, rfl, rfl, rfl⟩

mutual

/-- A token with no bracket group anywhere (an entry "without a slice
suffix"). -/
def noBracketTok : CTok → Bool
  | CTok.bracketGroup _ => false
  | CTok.parenGroup inner => noBracketToks inner
  | _ => true

def noBracketToks : CToks → Bool
  | CToks.nil => true
  | CToks.cons t ts => noBracketTok t && noBracketToks ts

end

/-- A cursor whose remaining tokens are bracket-free. -/
def noBracketIt : ItSt → Bool
  | ItSt.raw rem => noBracketToks rem
  | ItSt.untilDD rem _ => noBracketToks rem

theorem noBracketIt_underlying (t : ItSt) (h : noBracketIt t = true) :
    noBracketToks t.underlying = true := by
  cases t with
  | raw rem => exact h
  | untilDD rem seen => exact h

theorem noBracket_next_some (t : ItSt) (tok : CTok) (t1 : ItSt)
    (hnb : noBracketIt t = true) (h : t.next = (some tok, t1)) :
    noBracketTok tok = true ∧ noBracketIt t1 = true := by
  cases t with
  | raw rem =>
      cases rem with
      | nil => simp [ItSt.next] at h
      | cons a ts =>
          simp only [ItSt.next, Prod.mk.injEq, Option.some.injEq] at h
          obtain ⟨h1, h2⟩ := h
          subst h1
          subst h2
          simp only [noBracketIt, noBracketToks, Bool.and_eq_true] at hnb
          exact ⟨hnb.1, hnb.2⟩
  | untilDD rem seen =>
      cases seen with
      | true => simp [ItSt.next] at h
      | false =>
          cases rem with
          | nil => simp [ItSt.next] at h
          | cons a ts =>
              simp only [noBracketIt, noBracketToks, Bool.and_eq_true] at hnb
              cases a
              case dotDotTok => simp [ItSt.next] at h
              all_goals
                simp only [ItSt.next, Prod.mk.injEq, Option.some.injEq] at h
              all_goals
                obtain ⟨h1, h2⟩ := h
              all_goals
                subst h1
              all_goals
                subst h2
              all_goals
                exact ⟨hnb.1, hnb.2⟩

theorem noBracket_next_none (t t1 : ItSt) (hnb : noBracketIt t = true)
    (h : t.next = (none, t1)) : noBracketIt t1 = true := by
  cases t with
  | raw rem =>
      cases rem with
      | nil =>
          simp only [ItSt.next, Prod.mk.injEq] at h
          rw [← h.2]
          exact hnb
      | cons a ts => simp [ItSt.next] at h
  | untilDD rem seen =>
      cases seen with
      | true =>
          simp only [ItSt.next, Prod.mk.injEq] at h
          rw [← h.2]
          exact hnb
      | false =>
          cases rem with
          | nil =>
              simp only [ItSt.next, Prod.mk.injEq] at h
              rw [← h.2]
              exact hnb
          | cons a ts =>
              simp only [noBracketIt, noBracketToks, Bool.and_eq_true] at hnb
              cases a
              case dotDotTok =>
                simp only [ItSt.next, Prod.mk.injEq] at h
                rw [← h.2]
                exact hnb.2
              all_goals simp [ItSt.next] at h

theorem noBracketToks_dropThroughDotDot :
    ∀ rem : CToks, noBracketToks rem = true →
      noBracketToks (CToks.dropThroughDotDot rem) = true
  | CToks.nil, _ => by simp [CToks.dropThroughDotDot, noBracketToks]
  | CToks.cons a ts, h => by
      simp only [noBracketToks, Bool.and_eq_true] at h
      cases a
      case dotDotTok => exact h.2
      all_goals
        exact noBracketToks_dropThroughDotDot ts h.2

theorem noBracketIt_drain (t : ItSt) (h : noBracketIt t = true) :
    noBracketIt t.drain = true := by
  cases t with
  | raw rem => simp [ItSt.drain, noBracketIt, noBracketToks]
  | untilDD rem seen =>
      cases seen with
      | true => exact h
      | false => exact noBracketToks_dropThroughDotDot rem h

theorem project_deeper_slice (r : AssignsRange) (l : List ProjElem) :
    (r.project_deeper l).slice = r.slice := rfl

/-- On a bracket-free cursor, a successful `parse_place` (under any `deny`
parameter) leaves a bracket-free cursor and never produces a sliced range
(the slice branch is only reachable from a bracket token). -/
theorem parse_place_nb_invariant (ctx : PCtx) (dny : Option String) :
    ∀ fuel : Nat,
      (∀ t s ores t2 s2, noBracketIt t = true →
        parse_place ctx dny fuel t s = (Except.ok (ores, t2), s2) →
        noBracketIt t2 = true ∧ ∀ r, ores = some r → r.slice = none) ∧
      (∀ base t s ores t2 s2, noBracketIt t = true → base.slice = none →
        parse_place_loop ctx dny fuel base t s = (Except.ok (ores, t2), s2) →
        noBracketIt t2 = true ∧ ∀ r, ores = some r → r.slice = none) := by
  intro fuel
  induction fuel with
  | zero =>
      constructor
      · intro t s ores t2 s2 _ h
        simp [parse_place, PM.fatal] at h
      · intro base t s ores t2 s2 _ _ h
        simp [parse_place_loop, PM.fatal] at h
  | succ fuel ih =>
      obtain ⟨ihp, ihl⟩ := ih
      constructor
      · intro t s ores t2 s2 hnb h
        rcases hnx : t.next with ⟨otok, t1⟩
        cases otok with
        | none =>
            simp only [parse_place, hnx, PM.pure', Prod.mk.injEq,
              Except.ok.injEq] at h
            refine ⟨?_, ?_⟩
            · rw [← h.1.2]
              exact noBracket_next_none t t1 hnb hnx
            · intro r hr
              rw [← h.1.1] at hr
              exact absurd hr (by simp)
        | some tree =>
            have hc := noBracket_next_some t tree t1 hnb hnx
            cases tree with
            | parenGroup inner =>
                have hinner : noBracketIt (ItSt.raw inner) = true := by
                  simpa [noBracketIt, noBracketTok] using hc.1
                simp only [parse_place, hnx, PM.bind'] at h
                rcases hsub : parse_place ctx dny fuel (ItSt.raw inner) s
                  with ⟨rsub, sx⟩
                rw [hsub] at h
                cases rsub with
                | error e => simp at h
                | ok rr =>
                    dsimp only at h
                    have hinv := ihp (ItSt.raw inner) s rr.1 rr.2 sx hinner
                      (by rw [hsub])
                    rcases hr1 : rr.1 with _ | res
                    · rw [hr1] at h
                      simp only [PM.bind', PM.emitErr, PM.pure', Prod.mk.injEq,
                        Except.ok.injEq] at h
                      refine ⟨?_, ?_⟩
                      · rw [← h.1.2]
                        exact hc.2
                      · intro r hr
                        rw [← h.1.1] at hr
                        exact absurd hr (by simp)
                    · rw [hr1] at h
                      have hslice : res.slice = none := hinv.2 res hr1
                      rcases hnext2 : rr.2.next with ⟨o2, t3⟩
                      rw [hnext2] at h
                      cases o2 with
                      | some x =>
                          simp only [PM.emitErr] at h
                          exact ihl res t1 (sx ++
                            ["Expected only one lvalue in parenthesized expression"])
                            ores t2 s2 hc.2 hslice h
                      | none =>
                          simp only [PM.pure'] at h
                          exact ihl res t1 sx ores t2 s2 hc.2 hslice h
            | identTok id =>
                simp only [parse_place, hnx] at h
                rcases hfind : ctx.params.find? (fun q => q.1 == id) with _ | q
                · rw [hfind] at h
                  simp [PM.fatal] at h
                · rw [hfind] at h
                  exact ihl ⟨⟨q.2, []⟩, none⟩ t1 s ores t2 s2 hc.2 rfl h
            | starTok =>
                simp only [parse_place, hnx, PM.bind'] at h
                rcases hsub : parse_place ctx dny fuel t1 s with ⟨rsub, sx⟩
                rw [hsub] at h
                cases rsub with
                | error e => simp at h
                | ok rr =>
                    dsimp only at h
                    have hinv := ihp t1 s rr.1 rr.2 sx hc.2 (by rw [hsub])
                    rcases hr1 : rr.1 with _ | p
                    · rw [hr1] at h
                      simp only [PM.bind', PM.emitErr, PM.pure', Prod.mk.injEq,
                        Except.ok.injEq] at h
                      refine ⟨?_, ?_⟩
                      · rw [← h.1.2]
                        exact noBracketIt_drain rr.2 hinv.1
                      · intro r hr
                        rw [← h.1.1] at hr
                        exact absurd hr (by simp)
                    · rw [hr1] at h
                      have hps : (p.project_deeper [ProjElem.derefP]).slice = none := by
                        rw [project_deeper_slice]
                        exact hinv.2 p hr1
                      exact ihl (p.project_deeper [ProjElem.derefP]) rr.2 sx
                        ores t2 s2 hinv.1 hps h
            | dotTok => simp [parse_place, hnx, PM.fatal] at h
            | dotDotTok => simp [parse_place, hnx, PM.fatal] at h
            | commaTok => simp [parse_place, hnx, PM.fatal] at h
            | litTok x => simp [parse_place, hnx, PM.fatal] at h
            | otherTok x => simp [parse_place, hnx, PM.fatal] at h
            | bracketGroup inner => simp [noBracketTok] at hc
      · intro base t s ores t2 s2 hnb hbase h
        rcases hnx : t.next with ⟨otok, t1⟩
        cases otok with
        | none =>
            simp only [parse_place_loop, hnx, PM.pure', Prod.mk.injEq,
              Except.ok.injEq] at h
            refine ⟨?_, ?_⟩
            · rw [← h.1.2]
              exact noBracket_next_none t t1 hnb hnx
            · intro r hr
              rw [← h.1.1] at hr
              cases hr
              exact hbase
        | some tree =>
            have hc := noBracket_next_some t tree t1 hnb hnx
            cases tree with
            | commaTok =>
                simp only [parse_place_loop, hnx, PM.pure', Prod.mk.injEq,
                  Except.ok.injEq] at h
                refine ⟨?_, ?_⟩
                · rw [← h.1.2]
                  exact hc.2
                · intro r hr
                  rw [← h.1.1] at hr
                  cases hr
                  exact hbase
            | dotTok =>
                simp only [parse_place_loop, hnx] at h
                rcases hnx2 : t1.next with ⟨o2, t3⟩
                rw [hnx2] at h
                cases o2 with
                | none => simp [PM.fatal] at h
                | some tok2 =>
                    have hc2 := noBracket_next_some t1 tok2 t3 hc.2 hnx2
                    cases tok2 with
                    | identTok field =>
                        simp only [PM.bind'] at h
                        rw [show base.expect_base_only =
                            PM.pure' base.base from ?hb] at h
                        case hb =>
                          unfold AssignsRange.expect_base_only
                          rw [hbase]
                        simp only [PM.pure'] at h
                        rcases hpt : placeTy ctx base.base s with ⟨rpt, spt⟩
                        rw [hpt] at h
                        cases rpt with
                        | error e => simp at h
                        | ok pty =>
                            cases pty with
                            | refTy q => simp [PM.fatal] at h
                            | primTy => simp [PM.fatal] at h
                            | adtTy isStruct fields =>
                                cases isStruct with
                                | false => simp [PM.bind', PM.fatal] at h
                                | true =>
                                    simp only [eq_self_iff_true, if_true,
                                      PM.bind', PM.pure'] at h
                                    rcases hfi : fields.findIdx?
                                        (fun f => f.1 == field) with _ | fidx
                                    · rw [hfi] at h
                                      simp [PM.fatal] at h
                                    · rw [hfi] at h
                                      have hps :
                                          (base.project_deeper
                                            [ProjElem.fieldP fidx]).slice = none := by
                                        rw [project_deeper_slice]
                                        exact hbase
                                      exact ihl
                                        (base.project_deeper [ProjElem.fieldP fidx])
                                        t3 spt ores t2 s2 hc2.2 hps h
                    | starTok => simp [PM.fatal] at h
                    | dotTok => simp [PM.fatal] at h
                    | dotDotTok => simp [PM.fatal] at h
                    | commaTok => simp [PM.fatal] at h
                    | litTok x => simp [PM.fatal] at h
                    | parenGroup g => simp [PM.fatal] at h
                    | bracketGroup g => simp [PM.fatal] at h
                    | otherTok x => simp [PM.fatal] at h
            | bracketGroup inner => simp [noBracketTok] at hc
            | parenGroup inner => simp [parse_place_loop, hnx, PM.fatal] at h
            | identTok x => simp [parse_place_loop, hnx, PM.fatal] at h
            | starTok => simp [parse_place_loop, hnx, PM.fatal] at h
            | dotDotTok => simp [parse_place_loop, hnx, PM.fatal] at h
            | litTok x => simp [parse_place_loop, hnx, PM.fatal] at h
            | otherTok x => simp [parse_place_loop, hnx, PM.fatal] at h

/-- On a bracket-free cursor the `deny_wildcard_subslice` parameter is
never consulted: parsing for a `frees` clause behaves exactly like parsing
for an `assigns` clause (the parameter is only read in the bracket
branch). -/
theorem parse_place_deny_indep (ctx : PCtx) (d : String) :
    ∀ fuel : Nat,
      (∀ t, noBracketIt t = true →
        parse_place ctx (some d) fuel t = parse_place ctx none fuel t) ∧
      (∀ base t, noBracketIt t = true →
        parse_place_loop ctx (some d) fuel base t =
          parse_place_loop ctx none fuel base t) := by
  intro fuel
  induction fuel with
  | zero => exact ⟨fun _ _ => rfl, fun _ _ _ => rfl⟩
  | succ fuel ih =>
      obtain ⟨ihp, ihl⟩ := ih
      constructor
      · intro t hnb
        funext s
        rcases hnx : t.next with ⟨otok, t1⟩
        cases otok with
        | none => simp [parse_place, hnx]
        | some tree =>
            have hc := noBracket_next_some t tree t1 hnb hnx
            cases tree with
            | parenGroup inner =>
                have hinner : noBracketIt (ItSt.raw inner) = true := by
                  simpa [noBracketIt, noBracketTok] using hc.1
                simp only [parse_place, hnx, PM.bind']
                rw [ihp (ItSt.raw inner) hinner]
                rcases hsub : parse_place ctx none fuel (ItSt.raw inner) s
                  with ⟨rsub, sx⟩
                cases rsub with
                | error e => rfl
                | ok rr =>
                    dsimp only
                    rcases hr1 : rr.1 with _ | res
                    · rfl
                    · rcases hnext2 : rr.2.next with ⟨o2, t3⟩
                      cases o2 with
                      | some x =>
                          simp only [PM.emitErr]
                          exact congrFun (ihl res t1 hc.2) _
                      | none =>
                          simp only [PM.pure']
                          exact congrFun (ihl res t1 hc.2) _
            | identTok id =>
                simp only [parse_place, hnx]
                rcases hfind : ctx.params.find? (fun q => q.1 == id) with _ | q
                · rw [hfind]
                · rw [hfind]
                  exact congrFun (ihl ⟨⟨q.2, []⟩, none⟩ t1 hc.2) s
            | starTok =>
                simp only [parse_place, hnx, PM.bind']
                rw [ihp t1 hc.2]
                rcases hsub : parse_place ctx none fuel t1 s with ⟨rsub, sx⟩
                cases rsub with
                | error e => rfl
                | ok rr =>
                    dsimp only
                    rcases hr1 : rr.1 with _ | p
                    · rfl
                    · have hnb2 := ((parse_place_nb_invariant ctx none fuel).1
                        t1 s rr.1 rr.2 sx hc.2 (by rw [hsub])).1
                      exact congrFun
                        (ihl (p.project_deeper [ProjElem.derefP]) rr.2 hnb2) sx
            | dotTok => simp [parse_place, hnx]
            | dotDotTok => simp [parse_place, hnx]
            | commaTok => simp [parse_place, hnx]
            | litTok x => simp [parse_place, hnx]
            | otherTok x => simp [parse_place, hnx]
            | bracketGroup inner => simp [noBracketTok] at hc
      · intro base t hnb
        funext s
        rcases hnx : t.next with ⟨otok, t1⟩
        cases otok with
        | none => simp [parse_place_loop, hnx]
        | some tree =>
            have hc := noBracket_next_some t tree t1 hnb hnx
            cases tree with
            | commaTok => simp [parse_place_loop, hnx]
            | dotTok =>
                simp only [parse_place_loop, hnx]
                rcases hnx2 : t1.next with ⟨o2, t3⟩
                cases o2 with
                | none => simp [hnx2]
                | some tok2 =>
                    have hc2 := noBracket_next_some t1 tok2 t3 hc.2 hnx2
                    cases tok2 with
                    | identTok field =>
                        simp only [hnx2, PM.bind']
                        rcases hEB : AssignsRange.expect_base_only base s
                          with ⟨rEB, sEB⟩
                        cases rEB with
                        | error e => rfl
                        | ok p =>
                            dsimp only
                            rcases hpt : placeTy ctx p sEB with ⟨rpt, spt⟩
                            cases rpt with
                            | error e => rfl
                            | ok pty =>
                                dsimp only
                                cases pty with
                                | refTy q => rfl
                                | primTy => rfl
                                | adtTy isStruct fields =>
                                    cases isStruct with
                                    | false => rfl
                                    | true =>
                                        dsimp only [PM.bind', PM.pure']
                                        rcases hfi : fields.findIdx?
                                            (fun f => f.1 == field) with _ | fidx
                                        · rw [hfi]
                                        · rw [hfi]
                                          simp only [reduceIte, PM.pure']
                                          rw [ihl (base.project_deeper
                                              [ProjElem.fieldP fidx]) t3 hc2.2]
                    | starTok => simp [hnx2]
                    | dotTok => simp [hnx2]
                    | dotDotTok => simp [hnx2]
                    | commaTok => simp [hnx2]
                    | litTok x => simp [hnx2]
                    | parenGroup g => simp [hnx2]
                    | bracketGroup g => simp [hnx2]
                    | otherTok x => simp [hnx2]
            | bracketGroup inner => simp [noBracketTok] at hc
            | parenGroup inner => simp [parse_place_loop, hnx]
            | identTok x => simp [parse_place_loop, hnx]
            | starTok => simp [parse_place_loop, hnx]
            | dotDotTok => simp [parse_place_loop, hnx]
            | litTok x => simp [parse_place_loop, hnx]
            | otherTok x => simp [parse_place_loop, hnx]

/-- Post-compose a whole-clause assigns outcome with
`AssignsRange::expect_base_only` on every produced range. -/
def mapBases :
    Except String (List AssignsRange) × List String →
      Except String (List CPlace) × List String
  | (Except.ok rs, s) => (Except.ok (rs.map AssignsRange.base), s)
  | (Except.error e, s) => (Except.error e, s)

/-- On a bracket-free clause, `parse_frees_values` behaves exactly like
`parse_assign_values` followed by taking each range's base. -/
theorem frees_parses_like_assigns (ctx : PCtx) :
    ∀ (fuel : Nat) (toks : CToks) (s : List String),
      noBracketToks toks = true →
      parse_frees_values ctx fuel toks s =
        mapBases (parse_assign_values ctx fuel toks s) := by
  intro fuel
  induction fuel with
  | zero => intro toks s h; rfl
  | succ fuel ih =>
      intro toks s h
      cases toks with
      | nil => rfl
      | cons t0 ts0 =>
          have hnb : noBracketIt (ItSt.raw (CToks.cons t0 ts0)) = true := h
          have hdeny := (parse_place_deny_indep ctx "`frees` clause" fuel).1
            (ItSt.raw (CToks.cons t0 ts0)) hnb
          simp only [parse_frees_values, parse_assign_values, parse_values,
            PM.bind', hdeny]
          rcases hpp : parse_place ctx none fuel (ItSt.raw (CToks.cons t0 ts0)) s
            with ⟨rp, s1⟩
          cases rp with
          | error e => rfl
          | ok rr =>
              dsimp only
              have hinv := (parse_place_nb_invariant ctx none fuel).1
                (ItSt.raw (CToks.cons t0 ts0)) s rr.1 rr.2 s1 hnb (by rw [hpp])
              have hnbu : noBracketToks rr.2.underlying = true :=
                noBracketIt_underlying rr.2 hinv.1
              have hih := ih rr.2.underlying s1 hnbu
              rw [parse_assign_values] at hih
              rcases hrec : parse_values ctx none fuel rr.2.underlying s1
                with ⟨rrec, s2⟩
              rw [hrec] at hih
              rcases hr1 : rr.1 with _ | v
              · dsimp only
                rw [hih]
                cases rrec with
                | error e => rfl
                | ok rest => rfl
              · dsimp only
                have hvb : AssignsRange.expect_base_only v = PM.pure' v.base := by
                  unfold AssignsRange.expect_base_only
                  rw [hinv.2 v hr1]
                rw [hvb]
                simp only [PM.bind', PM.pure']
                rw [hih]
                cases rrec with
                | error e => rfl
                | ok rest => rfl

/-- C7: a frees-clause entry carrying a slice suffix fails to parse —
whether both bounds (`a[x..y]`), one bound (`a.b[x..]`), or neither bound
(`a[..]`) is present — emitting the error naming the frees clause before
the pipeline's `expect_base_only` aborts; and entries without a slice
suffix are parsed with the identical grammar as an assigns clause,
yielding exactly the base places. -/
theorem c7_frees_clause_subslice (ctx : PCtx) (fuel : Nat) (toks : CToks)
    (s : List String) (hnb : noBracketToks toks = true) :
    (parse_frees_values ctxFixP 99 toksIdentBoth).run =
      (Except.error "assertion failed: self.slice.is_none()",
       ["Subslice pattern is not allowed in `frees` clause."]) ∧
    (parse_frees_values ctxFixP 99 toksFromOnly).run =
      (Except.error "assertion failed: self.slice.is_none()",
       ["Subslice pattern is not allowed in `frees` clause."]) ∧
    (parse_frees_values ctxFixP 99 toksBoth).run =
      (Except.error "assertion failed: self.slice.is_none()",
       ["Subslice pattern is not allowed in `frees` clause."]) ∧
    parse_frees_values ctx fuel toks s =
      mapBases (parse_assign_values ctx fuel toks s) :=
  ⟨rfl, rfl, rfl, frees_parses_like_assigns ctx fuel toks s hnb⟩

/-- The tokens of `a.b` (no slice suffix). -/
def toksFieldOnly : CToks :=
  CToks.cons (CTok.identTok "a") (CToks.cons CTok.dotTok
    (CToks.cons (CTok.identTok "b") CToks.nil))

/-- Witness for C7 at a bracket-free clause `a.b`. -/
theorem c7_frees_clause_subslice_witness :
    (parse_frees_values ctxFixP 99 toksIdentBoth).run =
      (Except.error "assertion failed: self.slice.is_none()",
       ["Subslice pattern is not allowed in `frees` clause."]) ∧
    (parse_frees_values ctxFixP 99 toksFromOnly).run =
      (Except.error "assertion failed: self.slice.is_none()",
       ["Subslice pattern is not allowed in `frees` clause."]) ∧
    (parse_frees_values ctxFixP 99 toksBoth).run =
      (Except.error "assertion failed: self.slice.is_none()",
       ["Subslice pattern is not allowed in `frees` clause."]) ∧
    parse_frees_values ctxFixP 99 toksFieldOnly [] =
      mapBases (parse_assign_values ctxFixP 99 toksFieldOnly []) :=
  c7_frees_clause_subslice ctxFixP 99 toksFieldOnly [] rfl

end KaniC
